import Mathlib

/-!
Verification of the VCBot petition lifecycle and signature-reconciliation
engine (`petition_commands.py`).

The Python module is shallowly embedded below.  Persisted petition state
(`data/petitions.json`, a dict from message-id string to a record) is an
association list from `Nat` (message id) to `PetitionData`.  Live Discord
state (the anchor message, its ballpoint-pen reaction and its embed) is an
association list from message id to `LiveMsg`.  Remote side effects
(reaction add/remove, embed edit, admin notification) are recorded in an
explicit `Effect` list instead of being performed.  Timestamps are seconds
since the epoch (`Int`); Python's `datetime` arithmetic on aware UTC
datetimes is exact second arithmetic at this granularity.
-/

namespace VCBot

/-! ## Configuration constants (`petition_commands.py` lines 17-28) -/

def PETITIONS_CHANNEL_ID : Nat := 859209770439278613

def PETITION_SUBMISSION_CHANNEL_ID : Nat := 1169091012178743306

def BALLPOINT_EMOJI : String := "🖊️"

def SIGNATURE_THRESHOLD : Nat := 25

def RECALL_SIGNATURE_THRESHOLD : Nat := 30

def PETITION_EXPIRY_DAYS : Nat := 30

def RECALL_KEYWORDS : List String := ["fire", "sack", "recall"]

def SECONDS_PER_DAY : Int := 86400

/-! ## Substring search

Python's `keyword in text` test, written out over character lists so that
it is executable and decidable. -/

/-- `strStarts text pat`: `pat` is a prefix of `text` (character lists). -/
def strStarts : List Char → List Char → Bool
  | _, [] => true
  | [], _ :: _ => false
  | c :: cs, d :: ds => c == d && strStarts cs ds

/-- `strHas text pat`: `pat` occurs as a contiguous substring of `text`. -/
def strHas : List Char → List Char → Bool
  | [], pat => strStarts [] pat
  | c :: cs, pat => strStarts (c :: cs) pat || strHas cs pat

/-- Python's `pat in text` on strings. -/
def strContains (text pat : String) : Bool :=
  strHas text.data pat.data

/-- Python's `str.lower()`: lowercase character by character. -/
def strLower (s : String) : String :=
  ⟨s.data.map Char.toLower⟩

/-! ## Recall detection and thresholds (lines 187-196) -/

/-- `is_recall_petition` (line 187): keyword scan over
`(title + " " + description).lower()`. -/
def is_recall_petition (title description : String) : Bool :=
  let text := strLower (title ++ " " ++ description)
  RECALL_KEYWORDS.any (fun keyword => strContains text keyword)

/-! ## The petition record

Fields stored by `PetitionModal.on_submit` (lines 136-148) plus the flags
added later by `mark_petition_invalid` (lines 216-218). -/

structure PetitionData where
  title : String := ""
  description : String := ""
  link : Option String := none
  author_id : Nat := 0
  created_at : Int := 0
  signatures : Nat := 0
  is_recall : Bool := false
  threshold_reached : Bool := false
  expired : Bool := false
  invalid : Bool := false
  invalid_reason : Option String := none
  marked_invalid_at : Option Int := none
deriving Repr, DecidableEq

/-- `get_petition_threshold` (line 192). -/
def get_petition_threshold (p : PetitionData) : Nat :=
  if p.is_recall then RECALL_SIGNATURE_THRESHOLD else SIGNATURE_THRESHOLD

/-- The record stored at creation time (lines 136-148). -/
def new_petition (title description : String) (link : Option String)
    (authorId : Nat) (createdAt : Int) : PetitionData :=
  { title := title
    description := description
    link := link
    author_id := authorId
    created_at := createdAt
    signatures := 0
    is_recall := is_recall_petition title description
    threshold_reached := false
    expired := false
    invalid := false }

/-! ## The persisted store (`data/petitions.json`) -/

abbrev PStore := List (Nat × PetitionData)

def lookupP : PStore → Nat → Option PetitionData
  | [], _ => none
  | (k, v) :: rest, mid => if k = mid then some v else lookupP rest mid

/-- Point-update of every entry with the given key (a Python dict has at
most one). -/
def setP (s : PStore) (mid : Nat) (f : PetitionData → PetitionData) : PStore :=
  s.map (fun kv => (kv.1, if kv.1 = mid then f kv.2 else kv.2))

/-- `mark_threshold_reached` (lines 352-370): sets the flag and saves when
the id is a key of the loaded store, returns whether it was. -/
def mark_threshold_reached (s : PStore) (mid : Nat) : PStore × Bool :=
  match lookupP s mid with
  | some _ => (setP s mid (fun p => { p with threshold_reached := true }), true)
  | none => (s, false)

/-- `mark_petition_expired` (lines 542-560). -/
def mark_petition_expired (s : PStore) (mid : Nat) : PStore × Bool :=
  match lookupP s mid with
  | some _ => (setP s mid (fun p => { p with expired := true }), true)
  | none => (s, false)

/-- `mark_petition_invalid` (lines 209-230). -/
def mark_petition_invalid (s : PStore) (mid : Nat) (reason : String)
    (now : Int) : PStore × Bool :=
  match lookupP s mid with
  | some _ =>
    (setP s mid (fun p =>
      { p with invalid := true, invalid_reason := some reason,
               marked_invalid_at := some now }), true)
  | none => (s, false)

/-- `update_petition_signatures` (lines 232-245): writes only when the id
is a key of the store. -/
def update_petition_signatures (s : PStore) (mid : Nat) (n : Nat) : PStore :=
  match lookupP s mid with
  | some _ => setP s mid (fun p => { p with signatures := n })
  | none => s

/-! ## Expiry arithmetic (lines 532-540 and the age guards at 394-399,
793-798) -/

/-- `check_petition_expired` (lines 532-540):
`datetime.now(utc) > created_at + timedelta(days=30)`. -/
def check_petition_expired (p : PetitionData) (now : Int) : Bool :=
  decide (p.created_at + (PETITION_EXPIRY_DAYS : Int) * SECONDS_PER_DAY < now)

/-- `(datetime.now(utc) - created_at).days`: `timedelta.days` floor-divides
the span by one day. -/
def petition_age_days (p : PetitionData) (now : Int) : Int :=
  Int.fdiv (now - p.created_at) SECONDS_PER_DAY

/-! ## Live Discord state -/

/-- A participant of the ballpoint reaction (`user.id`, `user.bot`). -/
structure User where
  uid : Nat
  bot : Bool
deriving Repr, DecidableEq

/-- The petition embed: title, colour and the (name, value) fields. -/
structure Embed where
  title : String := ""
  color : Nat := 0x0099ff
  fields : List (String × String) := []
deriving Repr, DecidableEq

/-- An anchor message: the ballpoint-pen reaction (`none` when no such
reaction object exists on the message) and the embed list. -/
structure LiveMsg where
  ballpointUsers : Option (List User) := none
  embeds : List Embed := []
deriving Repr, DecidableEq

abbrev LiveWorld := List (Nat × LiveMsg)

def lookupL : LiveWorld → Nat → Option LiveMsg
  | [], _ => none
  | (k, v) :: rest, mid => if k = mid then some v else lookupL rest mid

def mapL (live : LiveWorld) (mid : Nat) (f : LiveMsg → LiveMsg) : LiveWorld :=
  live.map (fun kv => (kv.1, if kv.1 = mid then f kv.2 else kv.2))

/-- Count of non-bot users attached to the ballpoint reaction
(`len([user for user in reaction.users() if not user.bot])`, 0 when the
reaction object is absent). -/
def humanCount (m : LiveMsg) : Nat :=
  match m.ballpointUsers with
  | none => 0
  | some us => (us.filter (fun u => !u.bot)).length

/-- Whether the bot's own placeholder reaction is present
(`any(user.id == client.user.id for user in all_users)`). -/
def botReacted (botId : Nat) (m : LiveMsg) : Bool :=
  match m.ballpointUsers with
  | none => false
  | some us => us.any (fun u => u.uid == botId)

/-! ## Embed field editing -/

def SIG_FIELD_NAME : String := "Signatures Needed"

def getField : List (String × String) → String → Option String
  | [], _ => none
  | (n, v) :: rest, name => if n = name then some v else getField rest name

/-- `embed.set_field_at` at the first field named "Signatures Needed"
(the `for i, field ... break` loops); no field of that name means no
change. -/
def setSigField : List (String × String) → String → List (String × String)
  | [], _ => []
  | (n, v) :: rest, newV =>
    if n = SIG_FIELD_NAME then (n, newV) :: rest
    else (n, v) :: setSigField rest newV

/-- The rendered "current/threshold" field value. -/
def sigText (n threshold : Nat) : String :=
  toString n ++ "/" ++ toString threshold

/-! ## Remote side effects

Everything the petition engine does to Discord, recorded instead of
performed. -/

inductive Effect where
  | addReaction (mid : Nat)
  | removeReaction (mid : Nat)
  | editEmbed (mid : Nat) (e : Embed)
  | notify (mid : Nat) (sigs : Nat)
deriving Repr, DecidableEq

/-- Replay an effect against the live world (what Discord would do):
`message.add_reaction` / `message.remove_reaction(..., client.user)` /
`message.edit(embed=...)`.  Notifications go to another channel and do not
touch the anchor message. -/
def applyEffect (botId : Nat) (live : LiveWorld) (eff : Effect) : LiveWorld :=
  match eff with
  | Effect.addReaction mid =>
    mapL live mid (fun m =>
      { m with ballpointUsers := some ((m.ballpointUsers.getD []) ++ [⟨botId, true⟩]) })
  | Effect.removeReaction mid =>
    mapL live mid (fun m =>
      { m with ballpointUsers := m.ballpointUsers.map (fun us => us.filter (fun u => u.uid ≠ botId)) })
  | Effect.editEmbed mid e =>
    mapL live mid (fun m => { m with embeds := [e] })
  | Effect.notify _ _ => live

def applyEffects (botId : Nat) (live : LiveWorld) (effs : List Effect) : LiveWorld :=
  effs.foldl (applyEffect botId) live

/-! ## `update_expired_embed` (lines 678-710) -/

/-- Red colour, `[EXPIRED]` title, and the signatures field rewritten with
the *global* 25 threshold (line 698 uses `SIGNATURE_THRESHOLD`, not the
petition's own threshold).  No embeds means no edit (lines 681-682). -/
def update_expired_embed (mid : Nat) (m : LiveMsg) (p : PetitionData) : List Effect :=
  match m.embeds with
  | [] => []
  | e :: _ =>
    [Effect.editEmbed mid
      { e with
        color := 0xff0000
        title := "[EXPIRED] " ++ p.title
        fields := setSigField e.fields
          (sigText p.signatures SIGNATURE_THRESHOLD ++ " (EXPIRED)") }]

/-! ## `handle_petition_reaction` (lines 562-676) -/

structure Payload where
  channel_id : Nat
  message_id : Nat
  emoji : String
deriving Repr, DecidableEq

/-- The reaction-event handler.  Returns the saved store and the remote
effects, in the order the Python code performs them.  A failed message
fetch (`lookupL … = none`) falls into the outer `except` and does
nothing. -/
def handle_petition_reaction (botId : Nat) (now : Int) (payload : Payload)
    (live : LiveWorld) (s : PStore) : PStore × List Effect :=
  if payload.channel_id ≠ PETITIONS_CHANNEL_ID then (s, [])
  else if payload.emoji ≠ BALLPOINT_EMOJI then (s, [])
  else
    match lookupL live payload.message_id with
    | none => (s, [])
    | some m =>
      let mid := payload.message_id
      match lookupP s mid with
      | none => (s, [])
      | some p =>
        let threshold := get_petition_threshold p
        let is_expired := check_petition_expired p now
        if is_expired = true ∧ p.expired = false then
          ((mark_petition_expired s mid).1, update_expired_embed mid m p)
        else if is_expired = true then (s, [])
        else
          match m.ballpointUsers with
          | none =>
            -- no ballpoint reaction at all: add bot signature, store 0
            (update_petition_signatures s mid 0, [Effect.addReaction mid])
          | some allUsers =>
            let humanUsers := allUsers.filter (fun u => !u.bot)
            let botHas := allUsers.any (fun u => u.uid == botId)
            let n := humanUsers.length
            let reactEffects :=
              if n = 0 ∧ botHas = false then [Effect.addReaction mid]
              else if 0 < n ∧ botHas = true then [Effect.removeReaction mid]
              else []
            let s1 := update_petition_signatures s mid n
            match m.embeds with
            | [] => (s1, reactEffects)
            | e :: _ =>
              let e1 := { e with fields := setSigField e.fields (sigText n threshold) }
              if threshold ≤ n ∧ p.threshold_reached = false then
                let e2 := { e1 with color := 0x00ff00 }
                ((mark_threshold_reached s1 mid).1,
                 reactEffects ++ [Effect.notify mid n, Effect.editEmbed mid e2])
              else
                (s1, reactEffects ++ [Effect.editEmbed mid e1])

/-! ## Fetching with failure injection

`fetch_message` either finds the message, raises not-found (404), or
raises some other exception; ids in `failIds` model an unexpected
exception arising while processing that petition, caught by the
per-iteration `except` clause. -/

inductive FetchResult where
  | found (m : LiveMsg)
  | notFound
  | err
deriving Repr, DecidableEq

def fetchSim (live : LiveWorld) (failIds : List Nat) (mid : Nat) : FetchResult :=
  if mid ∈ failIds then FetchResult.err
  else
    match lookupL live mid with
    | some m => FetchResult.found m
    | none => FetchResult.notFound

/-! ## The signature audit (`verify_petition_signature_counts`,
lines 772-890) -/

/-- One iteration of the audit loop, over the snapshot entry
`(mid, p)` loaded at sweep start, threading the saved store `s`. -/
def verifyOne (now : Int) (live : LiveWorld) (failIds : List Nat)
    (entry : Nat × PetitionData) (s : PStore) : PStore × List Effect :=
  let mid := entry.1
  let p := entry.2
  if p.expired = true ∨ p.threshold_reached = true ∨ p.invalid = true then (s, [])
  else if (PETITION_EXPIRY_DAYS : Int) < petition_age_days p now then (s, [])
  else
    match fetchSim live failIds mid with
    | FetchResult.err => (s, [])
    | FetchResult.notFound =>
      ((mark_petition_invalid s mid "Message not found" now).1, [])
    | FetchResult.found m =>
      let actual := humanCount m
      if actual = p.signatures then (s, [])
      else
        let s1 := update_petition_signatures s mid actual
        match m.embeds with
        | [] => (s1, [])
        | e :: _ =>
          let threshold := get_petition_threshold p
          let e1 := { e with fields := setSigField e.fields (sigText actual threshold) }
          if threshold ≤ actual ∧ p.threshold_reached = false then
            let e2 := { e1 with color := 0x00ff00 }
            ((mark_threshold_reached s1 mid).1,
             [Effect.notify mid actual, Effect.editEmbed mid e2])
          else
            (s1, [Effect.editEmbed mid e1])

/-- Fold a per-petition step over the snapshot entry list, collecting
effects. -/
def sweepList (step : Nat × PetitionData → PStore → PStore × List Effect) :
    List (Nat × PetitionData) → PStore → PStore × List Effect
  | [], s => (s, [])
  | en :: rest, s =>
    let r1 := step en s
    let r2 := sweepList step rest r1.1
    (r2.1, r1.2 ++ r2.2)

def verify_petition_signature_counts (now : Int) (live : LiveWorld)
    (failIds : List Nat) (s : PStore) : PStore × List Effect :=
  sweepList (verifyOne now live failIds) s s

/-! ## The expiry sweep (`check_all_petitions_for_expiry`,
lines 712-768) -/

def expiryOne (now : Int) (live : LiveWorld) (failIds : List Nat)
    (entry : Nat × PetitionData) (s : PStore) : PStore × List Effect :=
  let mid := entry.1
  let p := entry.2
  if p.expired = true ∨ p.threshold_reached = true ∨ p.invalid = true then (s, [])
  else if check_petition_expired p now = true then
    match fetchSim live failIds mid with
    | FetchResult.err => (s, [])
    | FetchResult.notFound =>
      ((mark_petition_invalid s mid "Message not found" now).1, [])
    | FetchResult.found m =>
      ((mark_petition_expired s mid).1, update_expired_embed mid m p)
  else (s, [])

def check_all_petitions_for_expiry (now : Int) (live : LiveWorld)
    (failIds : List Nat) (s : PStore) : PStore × List Effect :=
  sweepList (expiryOne now live failIds) s s

/-! ## The startup repair pass (`repair_petition_system`, lines 372-530)

Thread creation (lines 486-501) touches no stored field and no reaction
or embed, and is omitted; everything that writes the store or the anchor
message is modelled. -/

def repairOne (_botId : Nat) (now : Int) (live : LiveWorld) (failIds : List Nat)
    (entry : Nat × PetitionData) (s : PStore) : PStore × List Effect :=
  let mid := entry.1
  let p := entry.2
  if p.invalid = true then (s, [])
  else if (PETITION_EXPIRY_DAYS : Int) < petition_age_days p now then (s, [])
  else
    match fetchSim live failIds mid with
    | FetchResult.err => (s, [])
    | FetchResult.notFound =>
      ((mark_petition_invalid s mid "Message not found" now).1, [])
    | FetchResult.found m =>
      match m.embeds with
      | [] => (s, [])
      | e :: _ =>
        let addEff :=
          match m.ballpointUsers with
          | none => [Effect.addReaction mid]
          | some _ => []
        let actual := humanCount m
        let threshold := get_petition_threshold p
        let expectedV := sigText actual threshold
        let r1 :=
          match getField e.fields SIG_FIELD_NAME with
          | none => (e, false)
          | some v =>
            if v = expectedV then (e, false)
            else ({ e with fields := setSigField e.fields expectedV }, true)
        let colorNeeds : Bool :=
          decide (SIGNATURE_THRESHOLD ≤ actual ∧ r1.1.color ≠ 0x00ff00)
        let e2 := if colorNeeds then { r1.1 with color := 0x00ff00 } else r1.1
        let editEff :=
          if r1.2 || colorNeeds then [Effect.editEmbed mid e2] else []
        (update_petition_signatures s mid actual, addEff ++ editEff)

def repair_petition_system (botId : Nat) (now : Int) (live : LiveWorld)
    (failIds : List Nat) (s : PStore) : PStore × List Effect :=
  sweepList (repairOne botId now live failIds) s s

/-! ## Background loops (lines 892-910)

`while True: try: sleep(interval); sweep() except: sleep(backoff)` —
the decision the loop takes after one execution of its `try` body. -/

inductive LoopDecision where
  | sleepThenContinue (seconds : Nat)
  | terminate
deriving Repr, DecidableEq

/-- `start_petition_signature_checker` (lines 892-900). -/
def signature_checker_on_outcome : Except String Unit → LoopDecision
  | Except.ok _ => LoopDecision.sleepThenContinue 3600
  | Except.error _ => LoopDecision.sleepThenContinue 1800

/-- `start_petition_expiry_checker` (lines 902-910). -/
def expiry_checker_on_outcome : Except String Unit → LoopDecision
  | Except.ok _ => LoopDecision.sleepThenContinue 21600
  | Except.error _ => LoopDecision.sleepThenContinue 3600

/-! ## Operation traces

Every mutation of the persisted store performed after creation: the
reaction-event handler, the two periodic auditors, the startup repair
pass and the four store-level marker/update functions.  Each step runs
against an adversarially chosen environment (clock, live reaction state,
injected failures). -/

inductive Op where
  | reactionEvent (payload : Payload)
  | signatureAudit
  | expiryAudit
  | repair
  | markThreshold (mid : Nat)
  | markExpired (mid : Nat)
  | markInvalid (mid : Nat) (reason : String)
  | updateSigs (mid : Nat) (n : Nat)
deriving Repr, DecidableEq

structure Env where
  botId : Nat
  now : Int
  live : LiveWorld
  failIds : List Nat
deriving Repr

def applyOp (env : Env) (op : Op) (s : PStore) : PStore × List Effect :=
  match op with
  | Op.reactionEvent payload =>
    handle_petition_reaction env.botId env.now payload env.live s
  | Op.signatureAudit =>
    verify_petition_signature_counts env.now env.live env.failIds s
  | Op.expiryAudit =>
    check_all_petitions_for_expiry env.now env.live env.failIds s
  | Op.repair =>
    repair_petition_system env.botId env.now env.live env.failIds s
  | Op.markThreshold mid => ((mark_threshold_reached s mid).1, [])
  | Op.markExpired mid => ((mark_petition_expired s mid).1, [])
  | Op.markInvalid mid reason => ((mark_petition_invalid s mid reason env.now).1, [])
  | Op.updateSigs mid n => (update_petition_signatures s mid n, [])

def runTrace : List (Env × Op) → PStore → PStore × List Effect
  | [], s => (s, [])
  | (env, op) :: rest, s =>
    let r1 := applyOp env op s
    let r2 := runTrace rest r1.1
    (r2.1, r1.2 ++ r2.2)

/-- Number of admin notifications for a given petition in an effect
list. -/
def notifyCount (effs : List Effect) (mid : Nat) : Nat :=
  (effs.filter (fun e =>
    match e with
    | Effect.notify m _ => m == mid
    | _ => false)).length

/-! ## Store lookup lemmas -/

theorem setP_cons (k1 : Nat) (v1 : PetitionData) (rest : PStore) (mid : Nat)
    (f : PetitionData → PetitionData) :
    setP ((k1, v1) :: rest) mid f =
      (k1, if k1 = mid then f v1 else v1) :: setP rest mid f := rfl

theorem lookupP_setP (s : PStore) (mid : Nat) (f : PetitionData → PetitionData)
    (k : Nat) :
    lookupP (setP s mid f) k =
      if k = mid then (lookupP s k).map f else lookupP s k := by
  induction s with
  | nil => simp [setP, lookupP]
  | cons kv rest ih =>
    obtain ⟨k1, v1⟩ := kv
    rw [setP_cons]
    by_cases h1 : k1 = mid
    · subst h1
      by_cases h2 : k1 = k
      · subst h2; simp [lookupP]
      · simp [lookupP, h2, Ne.symm h2, ih]
    · by_cases h2 : k1 = k
      · subst h2
        simp [lookupP, h1, Ne.symm h1]
      · simp [lookupP, h1, h2, ih]

theorem setP_keys (s : PStore) (mid : Nat) (f : PetitionData → PetitionData) :
    (setP s mid f).map Prod.fst = s.map Prod.fst := by
  induction s with
  | nil => rfl
  | cons kv rest ih =>
    obtain ⟨k1, v1⟩ := kv
    rw [setP_cons]
    simpa using ih

theorem lookupP_mem {s : PStore} {mid : Nat} {p : PetitionData}
    (h : lookupP s mid = some p) : (mid, p) ∈ s := by
  induction s with
  | nil => simp [lookupP] at h
  | cons kv rest ih =>
    obtain ⟨k1, v1⟩ := kv
    by_cases h1 : k1 = mid <;> simp_all [lookupP]

theorem mem_lookupP {s : PStore} {mid : Nat} {p : PetitionData}
    (hnd : (s.map Prod.fst).Nodup) (h : (mid, p) ∈ s) :
    lookupP s mid = some p := by
  induction s with
  | nil => simp at h
  | cons kv rest ih =>
    obtain ⟨k1, v1⟩ := kv
    simp only [List.map_cons, List.nodup_cons] at hnd
    rw [List.mem_cons] at h
    rcases h with h | h
    · injection h with ha hb
      subst ha; subst hb
      simp [lookupP]
    · have hk : k1 ≠ mid := by
        intro he
        exact hnd.1 (he ▸ (List.mem_map.mpr ⟨(mid, p), h, rfl⟩))
      simp [lookupP, hk, ih hnd.2 h]

theorem lookupP_isSome_of_key {s : PStore} {mid : Nat}
    (h : mid ∈ s.map Prod.fst) : (lookupP s mid).isSome := by
  induction s with
  | nil => simp at h
  | cons kv rest ih =>
    obtain ⟨k1, v1⟩ := kv
    by_cases h1 : k1 = mid
    · simp [lookupP, h1]
    · have h2 : mid ∈ rest.map Prod.fst := by
        simp only [List.map_cons, List.mem_cons] at h
        rcases h with h | h
        · exact absurd h.symm h1
        · exact h
      simp [lookupP, h1, ih h2]

theorem key_of_lookupP_isSome {s : PStore} {mid : Nat}
    (h : (lookupP s mid).isSome) : mid ∈ s.map Prod.fst := by
  induction s with
  | nil => simp [lookupP] at h
  | cons kv rest ih =>
    obtain ⟨k1, v1⟩ := kv
    by_cases h1 : k1 = mid <;> simp_all [lookupP]

/-! ## Lookup characterizations of the four store writers -/

theorem lookupP_mark_threshold (s : PStore) (mid k : Nat) :
    lookupP (mark_threshold_reached s mid).1 k =
      if k = mid then (lookupP s k).map (fun p => { p with threshold_reached := true })
      else lookupP s k := by
  unfold mark_threshold_reached
  cases hm : lookupP s mid with
  | none =>
    simp only []
    split
    · next h => subst h; simp [hm]
    · rfl
  | some q => simpa using lookupP_setP s mid _ k

theorem lookupP_mark_expired (s : PStore) (mid k : Nat) :
    lookupP (mark_petition_expired s mid).1 k =
      if k = mid then (lookupP s k).map (fun p => { p with expired := true })
      else lookupP s k := by
  unfold mark_petition_expired
  cases hm : lookupP s mid with
  | none =>
    simp only []
    split
    · next h => subst h; simp [hm]
    · rfl
  | some q => simpa using lookupP_setP s mid _ k

theorem lookupP_mark_invalid (s : PStore) (mid : Nat) (reason : String)
    (now : Int) (k : Nat) :
    lookupP (mark_petition_invalid s mid reason now).1 k =
      if k = mid then
        (lookupP s k).map (fun p =>
          { p with invalid := true, invalid_reason := some reason,
                   marked_invalid_at := some now })
      else lookupP s k := by
  unfold mark_petition_invalid
  cases hm : lookupP s mid with
  | none =>
    simp only []
    split
    · next h => subst h; simp [hm]
    · rfl
  | some q => simpa using lookupP_setP s mid _ k

theorem lookupP_update_sigs (s : PStore) (mid n : Nat) (k : Nat) :
    lookupP (update_petition_signatures s mid n) k =
      if k = mid then (lookupP s k).map (fun p => { p with signatures := n })
      else lookupP s k := by
  unfold update_petition_signatures
  cases hm : lookupP s mid with
  | none =>
    simp only []
    split
    · next h => subst h; simp [hm]
    · rfl
  | some q => simpa using lookupP_setP s mid _ k

theorem mark_threshold_keys (s : PStore) (mid : Nat) :
    ((mark_threshold_reached s mid).1).map Prod.fst = s.map Prod.fst := by
  unfold mark_threshold_reached
  cases lookupP s mid <;> simp [setP_keys]

theorem mark_expired_keys (s : PStore) (mid : Nat) :
    ((mark_petition_expired s mid).1).map Prod.fst = s.map Prod.fst := by
  unfold mark_petition_expired
  cases lookupP s mid <;> simp [setP_keys]

theorem mark_invalid_keys (s : PStore) (mid : Nat) (reason : String) (now : Int) :
    ((mark_petition_invalid s mid reason now).1).map Prod.fst = s.map Prod.fst := by
  unfold mark_petition_invalid
  cases lookupP s mid <;> simp [setP_keys]

theorem update_sigs_keys (s : PStore) (mid n : Nat) :
    (update_petition_signatures s mid n).map Prod.fst = s.map Prod.fst := by
  unfold update_petition_signatures
  cases lookupP s mid <;> simp [setP_keys]

/-! ## Flag monotonicity -/

/-- Between two versions of one record, the two lifecycle flags only ever
go false to true. -/
def flagLe (p q : PetitionData) : Prop :=
  (p.threshold_reached = true → q.threshold_reached = true) ∧
  (p.expired = true → q.expired = true)

theorem flagLe_refl (p : PetitionData) : flagLe p p :=
  ⟨fun h => h, fun h => h⟩

theorem flagLe_trans {p q r : PetitionData} (h1 : flagLe p q) (h2 : flagLe q r) :
    flagLe p r :=
  ⟨fun h => h2.1 (h1.1 h), fun h => h2.2 (h1.2 h)⟩

/-- Every petition present before is present after, with flags only ever
raised. -/
def storeMono (s t : PStore) : Prop :=
  ∀ mid p, lookupP s mid = some p → ∃ q, lookupP t mid = some q ∧ flagLe p q

theorem storeMono_refl (s : PStore) : storeMono s s :=
  fun _ p hp => ⟨p, hp, flagLe_refl p⟩

theorem storeMono_trans {s t u : PStore} (h1 : storeMono s t)
    (h2 : storeMono t u) : storeMono s u := by
  intro mid p hp
  obtain ⟨q, hq, h1'⟩ := h1 mid p hp
  obtain ⟨r, hr, h2'⟩ := h2 mid q hq
  exact ⟨r, hr, flagLe_trans h1' h2'⟩

theorem storeMono_of_lookup_eq {s t : PStore} (mid : Nat)
    (f : PetitionData → PetitionData) (hf : ∀ p, flagLe p (f p))
    (ht : ∀ k, lookupP t k =
      if k = mid then (lookupP s k).map f else lookupP s k) :
    storeMono s t := by
  intro k p hk
  rw [ht k]
  by_cases h : k = mid
  · subst h
    exact ⟨f p, by simp [hk], hf p⟩
  · exact ⟨p, by simp [h, hk], flagLe_refl p⟩

theorem mark_threshold_mono (s : PStore) (mid : Nat) :
    storeMono s (mark_threshold_reached s mid).1 :=
  storeMono_of_lookup_eq mid (fun p => { p with threshold_reached := true })
    (fun _ => ⟨fun _ => rfl, fun h => h⟩)
    (lookupP_mark_threshold s mid)

theorem mark_expired_mono (s : PStore) (mid : Nat) :
    storeMono s (mark_petition_expired s mid).1 :=
  storeMono_of_lookup_eq mid (fun p => { p with expired := true })
    (fun _ => ⟨fun h => h, fun _ => rfl⟩)
    (lookupP_mark_expired s mid)

theorem mark_invalid_mono (s : PStore) (mid : Nat) (reason : String) (now : Int) :
    storeMono s (mark_petition_invalid s mid reason now).1 :=
  storeMono_of_lookup_eq mid
    (fun p => { p with invalid := true, invalid_reason := some reason,
                       marked_invalid_at := some now })
    (fun _ => ⟨fun h => h, fun h => h⟩)
    (lookupP_mark_invalid s mid reason now)

theorem update_sigs_mono (s : PStore) (mid n : Nat) :
    storeMono s (update_petition_signatures s mid n) :=
  storeMono_of_lookup_eq mid (fun p => { p with signatures := n })
    (fun _ => ⟨fun h => h, fun h => h⟩)
    (lookupP_update_sigs s mid n)

theorem verifyOne_mono (now : Int) (live : LiveWorld) (failIds : List Nat)
    (en : Nat × PetitionData) (s : PStore) :
    storeMono s (verifyOne now live failIds en s).1 := by
  simp only [verifyOne]
  repeat' split
  all_goals first
    | exact storeMono_refl _
    | exact mark_invalid_mono _ _ _ _
    | exact update_sigs_mono _ _ _
    | exact storeMono_trans (update_sigs_mono _ _ _) (mark_threshold_mono _ _)

theorem expiryOne_mono (now : Int) (live : LiveWorld) (failIds : List Nat)
    (en : Nat × PetitionData) (s : PStore) :
    storeMono s (expiryOne now live failIds en s).1 := by
  simp only [expiryOne]
  repeat' split
  all_goals first
    | exact storeMono_refl _
    | exact mark_invalid_mono _ _ _ _
    | exact mark_expired_mono _ _

theorem repairOne_mono (botId : Nat) (now : Int) (live : LiveWorld)
    (failIds : List Nat) (en : Nat × PetitionData) (s : PStore) :
    storeMono s (repairOne botId now live failIds en s).1 := by
  simp only [repairOne]
  repeat' split
  all_goals first
    | exact storeMono_refl _
    | exact mark_invalid_mono _ _ _ _
    | exact update_sigs_mono _ _ _

theorem handle_mono (botId : Nat) (now : Int) (payload : Payload)
    (live : LiveWorld) (s : PStore) :
    storeMono s (handle_petition_reaction botId now payload live s).1 := by
  simp only [handle_petition_reaction]
  repeat' split
  all_goals first
    | exact storeMono_refl _
    | exact mark_expired_mono _ _
    | exact update_sigs_mono _ _ _
    | exact storeMono_trans (update_sigs_mono _ _ _) (mark_threshold_mono _ _)

theorem sweepList_mono
    (step : Nat × PetitionData → PStore → PStore × List Effect)
    (hstep : ∀ en st, storeMono st (step en st).1) :
    ∀ (entries : List (Nat × PetitionData)) (s : PStore),
      storeMono s (sweepList step entries s).1 := by
  intro entries
  induction entries with
  | nil => intro s; exact storeMono_refl s
  | cons en rest ih =>
    intro s
    simp only [sweepList]
    exact storeMono_trans (hstep en s) (ih _)

theorem applyOp_mono (env : Env) (op : Op) (s : PStore) :
    storeMono s (applyOp env op s).1 := by
  cases op with
  | reactionEvent payload => exact handle_mono _ _ _ _ _
  | signatureAudit => exact sweepList_mono _ (verifyOne_mono _ _ _) _ _
  | expiryAudit => exact sweepList_mono _ (expiryOne_mono _ _ _) _ _
  | repair => exact sweepList_mono _ (repairOne_mono _ _ _ _) _ _
  | markThreshold mid => exact mark_threshold_mono _ _
  | markExpired mid => exact mark_expired_mono _ _
  | markInvalid mid reason => exact mark_invalid_mono _ _ _ _
  | updateSigs mid n => exact update_sigs_mono _ _ _

theorem runTrace_mono (trace : List (Env × Op)) (s : PStore) :
    storeMono s (runTrace trace s).1 := by
  induction trace generalizing s with
  | nil => exact storeMono_refl s
  | cons step rest ih =>
    obtain ⟨env, op⟩ := step
    simp only [runTrace]
    exact storeMono_trans (applyOp_mono env op s) (ih _)

/-! ## Key preservation: no operation ever adds or removes a petition -/

theorem verifyOne_keys (now : Int) (live : LiveWorld) (failIds : List Nat)
    (en : Nat × PetitionData) (s : PStore) :
    ((verifyOne now live failIds en s).1).map Prod.fst = s.map Prod.fst := by
  simp only [verifyOne]
  repeat' split
  all_goals
    simp [mark_invalid_keys, update_sigs_keys, mark_threshold_keys]

theorem expiryOne_keys (now : Int) (live : LiveWorld) (failIds : List Nat)
    (en : Nat × PetitionData) (s : PStore) :
    ((expiryOne now live failIds en s).1).map Prod.fst = s.map Prod.fst := by
  simp only [expiryOne]
  repeat' split
  all_goals
    simp [mark_invalid_keys, mark_expired_keys]

theorem repairOne_keys (botId : Nat) (now : Int) (live : LiveWorld)
    (failIds : List Nat) (en : Nat × PetitionData) (s : PStore) :
    ((repairOne botId now live failIds en s).1).map Prod.fst = s.map Prod.fst := by
  simp only [repairOne]
  repeat' split
  all_goals
    simp [mark_invalid_keys, update_sigs_keys]

theorem handle_keys (botId : Nat) (now : Int) (payload : Payload)
    (live : LiveWorld) (s : PStore) :
    ((handle_petition_reaction botId now payload live s).1).map Prod.fst =
      s.map Prod.fst := by
  simp only [handle_petition_reaction]
  repeat' split
  all_goals
    simp [mark_expired_keys, update_sigs_keys, mark_threshold_keys]

theorem sweepList_keys
    (step : Nat × PetitionData → PStore → PStore × List Effect)
    (hstep : ∀ en st, ((step en st).1).map Prod.fst = st.map Prod.fst) :
    ∀ (entries : List (Nat × PetitionData)) (s : PStore),
      ((sweepList step entries s).1).map Prod.fst = s.map Prod.fst := by
  intro entries
  induction entries with
  | nil => intro s; rfl
  | cons en rest ih =>
    intro s
    simp only [sweepList]
    rw [ih, hstep]

theorem applyOp_keys (env : Env) (op : Op) (s : PStore) :
    ((applyOp env op s).1).map Prod.fst = s.map Prod.fst := by
  cases op with
  | reactionEvent payload => exact handle_keys _ _ _ _ _
  | signatureAudit => exact sweepList_keys _ (verifyOne_keys _ _ _) _ _
  | expiryAudit => exact sweepList_keys _ (expiryOne_keys _ _ _) _ _
  | repair => exact sweepList_keys _ (repairOne_keys _ _ _ _) _ _
  | markThreshold mid => exact mark_threshold_keys _ _
  | markExpired mid => exact mark_expired_keys _ _
  | markInvalid mid reason => exact mark_invalid_keys _ _ _ _
  | updateSigs mid n => exact update_sigs_keys _ _ _

/-! ## Frame lemmas: a sweep iteration writes only under its own key -/

theorem verifyOne_frame (now : Int) (live : LiveWorld) (failIds : List Nat)
    (en : Nat × PetitionData) (s : PStore) (mid : Nat) (h : en.1 ≠ mid) :
    lookupP (verifyOne now live failIds en s).1 mid = lookupP s mid := by
  have h' : mid ≠ en.1 := Ne.symm h
  simp only [verifyOne]
  repeat' split
  all_goals
    simp [lookupP_mark_invalid, lookupP_update_sigs, lookupP_mark_threshold, h']

theorem expiryOne_frame (now : Int) (live : LiveWorld) (failIds : List Nat)
    (en : Nat × PetitionData) (s : PStore) (mid : Nat) (h : en.1 ≠ mid) :
    lookupP (expiryOne now live failIds en s).1 mid = lookupP s mid := by
  have h' : mid ≠ en.1 := Ne.symm h
  simp only [expiryOne]
  repeat' split
  all_goals
    simp [lookupP_mark_invalid, lookupP_mark_expired, h']

/-- A sweep leaves the entry at `mid` untouched when every snapshot entry
under `mid` is skipped by the step and all other entries write only their
own keys. -/
theorem sweepList_lookup_invariant
    (step : Nat × PetitionData → PStore → PStore × List Effect)
    (mid : Nat) (p : PetitionData)
    (hframe : ∀ en st, en.1 ≠ mid → lookupP (step en st).1 mid = lookupP st mid)
    (hskip : ∀ st, step (mid, p) st = (st, [])) :
    ∀ (entries : List (Nat × PetitionData)) (st : PStore),
      (∀ q, (mid, q) ∈ entries → q = p) →
      lookupP (sweepList step entries st).1 mid = lookupP st mid := by
  intro entries
  induction entries with
  | nil => intro st _; rfl
  | cons en rest ih =>
    intro st hmem
    simp only [sweepList]
    by_cases h : en.1 = mid
    · obtain ⟨k, q⟩ := en
      simp only at h
      subst h
      have hq : q = p := hmem q (List.mem_cons_self _ _)
      subst hq
      rw [hskip st]
      exact ih st (fun q hq => hmem q (List.mem_cons_of_mem _ hq))
    · rw [ih _ (fun q hq => hmem q (List.mem_cons_of_mem _ hq)), hframe en st h]

/-- Like `sweepList_lookup_invariant`, for a key that appears in no
snapshot entry at all. -/
theorem sweepList_frame
    (step : Nat × PetitionData → PStore → PStore × List Effect) (mid : Nat)
    (hframe : ∀ en st, en.1 ≠ mid → lookupP (step en st).1 mid = lookupP st mid) :
    ∀ (entries : List (Nat × PetitionData)) (st : PStore),
      (∀ en ∈ entries, en.1 ≠ mid) →
      lookupP (sweepList step entries st).1 mid = lookupP st mid := by
  intro entries
  induction entries with
  | nil => intro st _; rfl
  | cons en rest ih =>
    intro st hne
    simp only [sweepList]
    rw [ih _ (fun en h => hne en (List.mem_cons_of_mem _ h)),
      hframe en st (hne en (List.mem_cons_self _ _))]

/-! ## Stability of the signature audit

A snapshot value is *stable* when the audit iteration leaves any store
untouched on it: the petition is skipped by one of the guards, its
message is gone only in appearance (the invalid flag is already set), or
its stored count already equals the live human-reactor count. -/

def verifyStable (now : Int) (live : LiveWorld) (k : Nat)
    (q : PetitionData) : Prop :=
  q.expired = true ∨ q.threshold_reached = true ∨ q.invalid = true
    ∨ (PETITION_EXPIRY_DAYS : Int) < petition_age_days q now
    ∨ (∃ m, lookupL live k = some m ∧ humanCount m = q.signatures)

theorem verifyOne_of_stable (now : Int) (live : LiveWorld) (k : Nat)
    (q : PetitionData) (hs : verifyStable now live k q) (st : PStore) :
    verifyOne now live [] (k, q) st = (st, []) := by
  simp only [verifyOne]
  by_cases h1 : q.expired = true ∨ q.threshold_reached = true ∨ q.invalid = true
  · rw [if_pos h1]
  · rw [if_neg h1]
    by_cases h2 : (PETITION_EXPIRY_DAYS : Int) < petition_age_days q now
    · rw [if_pos h2]
    · rw [if_neg h2]
      rcases hs with h | h | h | h | ⟨m, hm, hcount⟩
      · exact absurd (Or.inl h) h1
      · exact absurd (Or.inr (Or.inl h)) h1
      · exact absurd (Or.inr (Or.inr h)) h1
      · exact absurd h h2
      · have hf : fetchSim live [] k = FetchResult.found m := by
          simp [fetchSim, hm]
        rw [hf]
        simp [hcount]

/-- Processing a snapshot entry makes whatever now sits under its key
stable. -/
theorem verifyOne_establishes (now : Int) (live : LiveWorld) (k : Nat)
    (q : PetitionData) (st : PStore) (hst : lookupP st k = some q) :
    ∃ q', lookupP (verifyOne now live [] (k, q) st).1 k = some q' ∧
      verifyStable now live k q' := by
  simp only [verifyOne]
  by_cases h1 : q.expired = true ∨ q.threshold_reached = true ∨ q.invalid = true
  · rw [if_pos h1]
    refine ⟨q, hst, ?_⟩
    rcases h1 with h | h | h
    · exact Or.inl h
    · exact Or.inr (Or.inl h)
    · exact Or.inr (Or.inr (Or.inl h))
  · rw [if_neg h1]
    by_cases h2 : (PETITION_EXPIRY_DAYS : Int) < petition_age_days q now
    · rw [if_pos h2]
      exact ⟨q, hst, Or.inr (Or.inr (Or.inr (Or.inl h2)))⟩
    · rw [if_neg h2]
      cases hL : lookupL live k with
      | none =>
        have hf : fetchSim live [] k = FetchResult.notFound := by
          simp [fetchSim, hL]
        rw [hf]
        dsimp only
        refine ⟨{ q with
            invalid := true
            invalid_reason := some "Message not found"
            marked_invalid_at := some now }, ?_, ?_⟩
        · simp [lookupP_mark_invalid, hst]
        · exact Or.inr (Or.inr (Or.inl rfl))
      | some m =>
        have hf : fetchSim live [] k = FetchResult.found m := by
          simp [fetchSim, hL]
        rw [hf]
        dsimp only
        by_cases h3 : humanCount m = q.signatures
        · rw [if_pos h3]
          exact ⟨q, hst, Or.inr (Or.inr (Or.inr (Or.inr ⟨m, hL, h3⟩)))⟩
        · rw [if_neg h3]
          cases hE : m.embeds with
          | nil =>
            dsimp only
            refine ⟨{ q with signatures := humanCount m }, ?_, ?_⟩
            · simp [lookupP_update_sigs, hst]
            · exact Or.inr (Or.inr (Or.inr (Or.inr ⟨m, hL, rfl⟩)))
          | cons e es =>
            dsimp only
            by_cases h4 : get_petition_threshold q ≤ humanCount m ∧
                q.threshold_reached = false
            · rw [if_pos h4]
              refine ⟨{ q with
                  signatures := humanCount m
                  threshold_reached := true }, ?_, ?_⟩
              · simp [lookupP_mark_threshold, lookupP_update_sigs, hst]
              · exact Or.inr (Or.inl rfl)
            · rw [if_neg h4]
              refine ⟨{ q with signatures := humanCount m }, ?_, ?_⟩
              · simp [lookupP_update_sigs, hst]
              · exact Or.inr (Or.inr (Or.inr (Or.inr ⟨m, hL, rfl⟩)))

/-- After one full audit sweep, the value stored under every snapshot key
is stable. -/
theorem verify_sweep_establishes (now : Int) (live : LiveWorld) :
    ∀ (entries : List (Nat × PetitionData)) (st : PStore),
      (entries.map Prod.fst).Nodup →
      (∀ en ∈ entries, lookupP st en.1 = some en.2) →
      ∀ k ∈ entries.map Prod.fst,
        ∃ q, lookupP (sweepList (verifyOne now live []) entries st).1 k = some q ∧
          verifyStable now live k q := by
  intro entries
  induction entries with
  | nil => intro st _ _ k hk; simp at hk
  | cons en rest ih =>
    obtain ⟨k1, q1⟩ := en
    intro st hnd hlk k hk
    simp only [List.map_cons, List.nodup_cons] at hnd
    simp only [List.map_cons, List.mem_cons] at hk
    have hknotin : ∀ en2 ∈ rest, en2.1 ≠ k1 := by
      intro en2 hen2 he
      exact hnd.1 (by rw [← he]; exact List.mem_map.mpr ⟨en2, hen2, rfl⟩)
    simp only [sweepList]
    rcases hk with hk | hk
    · rw [hk]
      obtain ⟨q', hq', hstab⟩ :=
        verifyOne_establishes now live k1 q1 st (hlk (k1, q1) (List.mem_cons_self _ _))
      refine ⟨q', ?_, hstab⟩
      rw [sweepList_frame _ k1
        (fun en2 st2 h => verifyOne_frame now live [] en2 st2 k1 h) rest _ hknotin]
      exact hq'
    · have hlk2 : ∀ en2 ∈ rest,
          lookupP (verifyOne now live [] (k1, q1) st).1 en2.1 = some en2.2 := by
        intro en2 hen2
        have hfr := verifyOne_frame now live [] (k1, q1) st en2.1
          (Ne.symm (hknotin en2 hen2))
        rw [hfr]
        exact hlk en2 (List.mem_cons_of_mem _ hen2)
      exact ih _ hnd.2 hlk2 k hk

/-- A sweep over entries that are all stable is the identity and performs
nothing. -/
theorem verify_sweep_stable_identity (now : Int) (live : LiveWorld) :
    ∀ (entries : List (Nat × PetitionData)) (st : PStore),
      (∀ en ∈ entries, verifyStable now live en.1 en.2) →
      sweepList (verifyOne now live []) entries st = (st, []) := by
  intro entries
  induction entries with
  | nil => intro st _; rfl
  | cons en rest ih =>
    intro st hstab
    obtain ⟨k, q⟩ := en
    simp only [sweepList]
    rw [verifyOne_of_stable now live k q (hstab (k, q) (List.mem_cons_self _ _)) st]
    rw [ih st (fun en h => hstab en (List.mem_cons_of_mem _ h))]
    rfl

/-! ## Claim C3 -/

def c3_petition : PetitionData :=
  { title := "T", created_at := 0, signatures := 1 }

def c3_msg : LiveMsg :=
  { ballpointUsers := some [⟨7, false⟩]
    embeds := [{ fields := [(SIG_FIELD_NAME, "1/25")] }] }

def c3_payload : Payload := ⟨PETITIONS_CHANNEL_ID, 1, BALLPOINT_EMOJI⟩

def c3_run1 : PStore × List Effect :=
  handle_petition_reaction 99 0 c3_payload [(1, c3_msg)] [(1, c3_petition)]

def c3_live2 : LiveWorld := applyEffects 99 [(1, c3_msg)] c3_run1.2

def c3_run2 : PStore × List Effect :=
  handle_petition_reaction 99 0 c3_payload c3_live2 c3_run1.1

/-- Claim C3 is false as stated for the reaction-event handler: on a
petition with one signer and fully consistent state, the first handler
run leaves the live reaction state unchanged, and the second run — with
nothing drifted — still performs a remote embed edit (line 673 runs
unconditionally whenever the message has an embed). -/
theorem C3_counterexample :
    c3_live2 = [(1, c3_msg)] ∧
    c3_run2.1 = c3_run1.1 ∧
    c3_run2.2 = [Effect.editEmbed 1
      { title := "", color := 0x0099ff, fields := [(SIG_FIELD_NAME, "1/25")] }] := by
  refine ⟨?_, ?_, ?_⟩ <;> decide

/-- Claim C3 (amended): the periodic signature audit
`verify_petition_signature_counts` is idempotent — running it again
immediately, on unchanged live reaction state, returns the stored
document unchanged and performs no remote effects at all (in particular
no embed edit and no reaction change); the reaction-event handler also
recomputes the same count, but re-edits the embed on every invocation
even when nothing drifted. -/
theorem C3_verify_idempotent (now : Int) (live : LiveWorld) (s : PStore)
    (hnd : (s.map Prod.fst).Nodup) :
    verify_petition_signature_counts now live []
        (verify_petition_signature_counts now live [] s).1 =
      ((verify_petition_signature_counts now live [] s).1, []) := by
  unfold verify_petition_signature_counts
  have hkeys : ((sweepList (verifyOne now live []) s s).1).map Prod.fst =
      s.map Prod.fst :=
    sweepList_keys _ (verifyOne_keys now live []) s s
  have hnd1 : (((sweepList (verifyOne now live []) s s).1).map Prod.fst).Nodup := by
    rw [hkeys]; exact hnd
  apply verify_sweep_stable_identity
  intro en hen
  have hlk1 : lookupP (sweepList (verifyOne now live []) s s).1 en.1 = some en.2 :=
    mem_lookupP hnd1 hen
  have hkmem : en.1 ∈ s.map Prod.fst := by
    rw [← hkeys]; exact List.mem_map.mpr ⟨en, hen, rfl⟩
  obtain ⟨q, hq, hstab⟩ := verify_sweep_establishes now live s s hnd
    (fun en2 hen2 => mem_lookupP hnd hen2) en.1 hkmem
  rw [hlk1] at hq
  injection hq with hq
  rw [hq]
  exact hstab

def c3w_store : PStore := [(1, { title := "W", created_at := 0, signatures := 1 })]

theorem C3_verify_idempotent_witness :
    verify_petition_signature_counts 0 [] []
        (verify_petition_signature_counts 0 [] [] c3w_store).1 =
      ((verify_petition_signature_counts 0 [] [] c3w_store).1, []) :=
  C3_verify_idempotent 0 [] c3w_store (by decide)

/-! ## Claim C1 -/

def c1_petition : PetitionData :=
  { title := "T", created_at := 0, signatures := 30, threshold_reached := true }

def c1_msg : LiveMsg :=
  { ballpointUsers := some [⟨7, false⟩]
    embeds := [{ fields := [("Author", "a"), (SIG_FIELD_NAME, "30/25")] }] }

def c1_payload : Payload := ⟨PETITIONS_CHANNEL_ID, 1, BALLPOINT_EMOJI⟩

/-- Claim C1 is false as stated: a petition whose `threshold_reached` flag
is already true and whose expiry window has passed IS marked `expired` by
`handle_petition_reaction` when a reaction event arrives — the handler's
expiry path (lines 594-602) never consults `threshold_reached`.  Concrete
run: petition created at time 0 with the flag set, reaction event at day
31. -/
theorem C1_counterexample :
    c1_petition.threshold_reached = true ∧
    (lookupP (handle_petition_reaction 99 (31 * 86400) c1_payload
        [(1, c1_msg)] [(1, c1_petition)]).1 1).map PetitionData.expired =
      some true := by
  constructor
  · rfl
  · decide

/-- Claim C1 (amended): once `threshold_reached` is true, the periodic
expiry sweep `check_all_petitions_for_expiry` never marks the petition
expired — its record is returned entirely unchanged (the guard at lines
724-729 skips completed petitions); the reaction-event handler, however,
does not suppress the expired transition. -/
theorem C1_sweep_suppresses_expiry (now : Int) (live : LiveWorld)
    (failIds : List Nat) (s : PStore) (mid : Nat) (p : PetitionData)
    (hnd : (s.map Prod.fst).Nodup) (hp : lookupP s mid = some p)
    (ht : p.threshold_reached = true) :
    lookupP (check_all_petitions_for_expiry now live failIds s).1 mid = some p := by
  have hskip : ∀ st, expiryOne now live failIds (mid, p) st = (st, []) := by
    intro st
    simp only [expiryOne]
    rw [if_pos (Or.inr (Or.inl ht))]
  have hmem : ∀ q, (mid, q) ∈ s → q = p := by
    intro q hq
    have h2 := mem_lookupP hnd hq
    rw [hp] at h2
    exact (Option.some.injEq _ _ ▸ h2).symm
  unfold check_all_petitions_for_expiry
  rw [sweepList_lookup_invariant _ mid p
    (fun en st h => expiryOne_frame now live failIds en st mid h) hskip s s hmem, hp]

def c1w_petition : PetitionData :=
  { title := "W", created_at := 0, signatures := 30, threshold_reached := true }

theorem C1_sweep_suppresses_expiry_witness :
    lookupP (check_all_petitions_for_expiry (31 * 86400) [] []
      [(1, c1w_petition)]).1 1 = some c1w_petition :=
  C1_sweep_suppresses_expiry (31 * 86400) [] [] [(1, c1w_petition)] 1
    c1w_petition (by decide) (by decide) (by decide)

/-! ## Claim C2 -/

/-- Claim C2 is false as stated: `RECALL_KEYWORDS = ["fire", "sack",
"recall"]`, so a petition containing "fire" but not "recall" also gets
threshold 30.  Concrete input: title "Fire the minister", empty
description. -/
theorem C2_counterexample :
    strContains (strLower ("Fire the minister" ++ " " ++ "")) "recall" = false ∧
    get_petition_threshold (new_petition "Fire the minister" "" none 0 0) = 30 := by
  constructor
  · decide
  · decide

/-- Claim C2 (amended): the derived threshold of a freshly created
petition is `RECALL_SIGNATURE_THRESHOLD` (30) exactly when the lowercased
`title + " " + description` contains one of the keywords "fire", "sack",
"recall" as a substring, and `SIGNATURE_THRESHOLD` (25) exactly when it
contains none of them.  Containing "recall" still implies threshold 30,
but its absence does not imply 25. -/
theorem C2_threshold_selection (title description : String)
    (link : Option String) (authorId : Nat) (createdAt : Int) :
    (get_petition_threshold (new_petition title description link authorId createdAt) =
        RECALL_SIGNATURE_THRESHOLD ↔
      ∃ k ∈ RECALL_KEYWORDS,
        strContains (strLower (title ++ " " ++ description)) k = true) ∧
    (get_petition_threshold (new_petition title description link authorId createdAt) =
        SIGNATURE_THRESHOLD ↔
      ∀ k ∈ RECALL_KEYWORDS,
        strContains (strLower (title ++ " " ++ description)) k = false) := by
  have hiff : is_recall_petition title description = true ↔
      ∃ k ∈ RECALL_KEYWORDS,
        strContains (strLower (title ++ " " ++ description)) k = true := by
    simp [is_recall_petition, List.any_eq_true]
  have hiff2 : is_recall_petition title description = false ↔
      ∀ k ∈ RECALL_KEYWORDS,
        strContains (strLower (title ++ " " ++ description)) k = false := by
    simp [is_recall_petition, List.any_eq_false]
  have hth : get_petition_threshold
      (new_petition title description link authorId createdAt) =
      if is_recall_petition title description then RECALL_SIGNATURE_THRESHOLD
      else SIGNATURE_THRESHOLD := rfl
  rw [hth]
  by_cases h : is_recall_petition title description = true
  · rw [if_pos h]
    refine ⟨⟨fun _ => hiff.mp h, fun _ => rfl⟩, ?_, ?_⟩
    · intro hc; exact absurd hc (by decide)
    · intro hall; exact absurd (hiff2.mpr hall) (by simp [h])
  · rw [if_neg h]
    refine ⟨⟨fun hc => absurd hc (by decide), fun hex => absurd (hiff.mpr hex) h⟩,
      fun _ => hiff2.mp (by simpa using h), fun _ => rfl⟩

/-! ## Claim C5 -/

theorem sweepList_append
    (step : Nat × PetitionData → PStore → PStore × List Effect)
    (l1 l2 : List (Nat × PetitionData)) (st : PStore) :
    sweepList step (l1 ++ l2) st =
      ((sweepList step l2 (sweepList step l1 st).1).1,
        (sweepList step l1 st).2 ++ (sweepList step l2 (sweepList step l1 st).1).2) := by
  induction l1 generalizing st with
  | nil => simp [sweepList]
  | cons en rest ih =>
    simp only [List.cons_append, sweepList, List.append_eq]
    rw [ih, List.append_assoc]

theorem getField_setSigField (fs : List (String × String)) (v : String)
    (hex : (getField fs SIG_FIELD_NAME).isSome) :
    getField (setSigField fs v) SIG_FIELD_NAME = some v := by
  induction fs with
  | nil => simp [getField] at hex
  | cons nv rest ih =>
    obtain ⟨n, v0⟩ := nv
    by_cases h : n = SIG_FIELD_NAME
    · subst h; simp [setSigField, getField]
    · simp only [setSigField, getField, h, if_false, if_neg h] at hex ⊢
      exact ih hex

theorem nodup_split_key {l1 l2 : PStore} {mid : Nat} {p : PetitionData}
    (hnd : ((l1 ++ (mid, p) :: l2).map Prod.fst).Nodup) :
    (∀ en ∈ l1, en.1 ≠ mid) ∧ (∀ en ∈ l2, en.1 ≠ mid) := by
  rw [List.map_append, List.map_cons, List.nodup_append] at hnd
  obtain ⟨hn1, hn2, hdis⟩ := hnd
  rw [List.nodup_cons] at hn2
  refine ⟨?_, ?_⟩
  · intro en hen he
    exact hdis (List.mem_map.mpr ⟨en, hen, he⟩) (List.mem_cons_self _ _)
  · intro en hen he
    exact hn2.1 (List.mem_map.mpr ⟨en, hen, he⟩)

/-- The audit iteration on an open, in-window petition whose stored count
drifted from the live human-reactor count: stored value becomes the live
count and the embed's signature field is rewritten to
"actual/threshold". -/
theorem verifyOne_drift (now : Int) (live : LiveWorld) (failIds : List Nat)
    (mid : Nat) (p : PetitionData) (st : PStore) (m : LiveMsg) (e : Embed)
    (es : List Embed)
    (hst : lookupP st mid = some p)
    (hexp : p.expired = false) (hth : p.threshold_reached = false)
    (hinv : p.invalid = false)
    (hage : petition_age_days p now ≤ (PETITION_EXPIRY_DAYS : Int))
    (hfail : mid ∉ failIds)
    (hm : lookupL live mid = some m)
    (he : m.embeds = e :: es)
    (hfield : (getField e.fields SIG_FIELD_NAME).isSome)
    (hdrift : humanCount m ≠ p.signatures) :
    ∃ q e2,
      lookupP (verifyOne now live failIds (mid, p) st).1 mid = some q ∧
      q.signatures = humanCount m ∧
      Effect.editEmbed mid e2 ∈ (verifyOne now live failIds (mid, p) st).2 ∧
      getField e2.fields SIG_FIELD_NAME =
        some (sigText (humanCount m) (get_petition_threshold p)) := by
  have h1 : ¬ (p.expired = true ∨ p.threshold_reached = true ∨ p.invalid = true) := by
    simp [hexp, hth, hinv]
  have h2 : ¬ (PETITION_EXPIRY_DAYS : Int) < petition_age_days p now :=
    not_lt.mpr hage
  have hf : fetchSim live failIds mid = FetchResult.found m := by
    simp [fetchSim, hfail, hm]
  simp only [verifyOne]
  rw [if_neg h1, if_neg h2, hf]
  dsimp only
  rw [if_neg hdrift, he]
  dsimp only
  by_cases h4 : get_petition_threshold p ≤ humanCount m ∧
      p.threshold_reached = false
  · rw [if_pos h4]
    refine ⟨{ p with
        signatures := humanCount m
        threshold_reached := true },
      { e with
        color := 0x00ff00
        fields := setSigField e.fields
          (sigText (humanCount m) (get_petition_threshold p)) },
      ?_, rfl, ?_, ?_⟩
    · simp [lookupP_mark_threshold, lookupP_update_sigs, hst]
    · exact List.mem_cons_of_mem _ (List.mem_cons_self _ _)
    · exact getField_setSigField e.fields _ hfield
  · rw [if_neg h4]
    refine ⟨{ p with signatures := humanCount m },
      { e with
        fields := setSigField e.fields
          (sigText (humanCount m) (get_petition_threshold p)) },
      ?_, rfl, ?_, ?_⟩
    · simp [lookupP_update_sigs, hst]
    · exact List.mem_cons_self _ _
    · exact getField_setSigField e.fields _ hfield

/-- Claim C5: for every open (not expired, not reached, not invalid, in
the expiry window) petition whose stored signature count differs from
the live count of non-bot ballpoint reactors, one pass of the signature
audit stores the live count and rewrites the embed's signature field to
"actual/threshold". -/
theorem C5_audit_corrects_drift (now : Int) (live : LiveWorld)
    (failIds : List Nat) (s : PStore) (mid : Nat) (p : PetitionData)
    (m : LiveMsg) (e : Embed) (es : List Embed)
    (hnd : (s.map Prod.fst).Nodup)
    (hs : lookupP s mid = some p)
    (hexp : p.expired = false) (hth : p.threshold_reached = false)
    (hinv : p.invalid = false)
    (hage : petition_age_days p now ≤ (PETITION_EXPIRY_DAYS : Int))
    (hfail : mid ∉ failIds)
    (hm : lookupL live mid = some m)
    (he : m.embeds = e :: es)
    (hfield : (getField e.fields SIG_FIELD_NAME).isSome)
    (hdrift : humanCount m ≠ p.signatures) :
    ∃ q e2,
      lookupP (verify_petition_signature_counts now live failIds s).1 mid = some q ∧
      q.signatures = humanCount m ∧
      Effect.editEmbed mid e2 ∈ (verify_petition_signature_counts now live failIds s).2 ∧
      getField e2.fields SIG_FIELD_NAME =
        some (sigText (humanCount m) (get_petition_threshold p)) := by
  obtain ⟨l1, l2, hsplit⟩ := List.append_of_mem (lookupP_mem hs)
  subst hsplit
  obtain ⟨hL1, hL2⟩ := nodup_split_key hnd
  unfold verify_petition_signature_counts
  rw [sweepList_append]
  simp only [sweepList]
  have hst1 : lookupP (sweepList (verifyOne now live failIds) l1
      (l1 ++ (mid, p) :: l2)).1 mid = some p := by
    rw [sweepList_frame _ mid
      (fun en st h => verifyOne_frame now live failIds en st mid h) l1 _ hL1]
    exact hs
  obtain ⟨q, e2, hq, hsig, hmem, hfld⟩ := verifyOne_drift now live failIds mid p
    (sweepList (verifyOne now live failIds) l1 (l1 ++ (mid, p) :: l2)).1
    m e es hst1 hexp hth hinv hage hfail hm he hfield hdrift
  refine ⟨q, e2, ?_, hsig, ?_, hfld⟩
  · rw [sweepList_frame _ mid
      (fun en st h => verifyOne_frame now live failIds en st mid h) l2 _ hL2]
    exact hq
  · refine List.mem_append.mpr (Or.inr ?_)
    exact List.mem_append.mpr (Or.inl hmem)

def c5w_petition : PetitionData := { title := "W", created_at := 0, signatures := 0 }

def c5w_msg : LiveMsg :=
  { ballpointUsers := some [⟨7, false⟩]
    embeds := [{ fields := [(SIG_FIELD_NAME, "0/25")] }] }

theorem C5_audit_corrects_drift_witness :
    ∃ q e2,
      lookupP (verify_petition_signature_counts 0 [(1, c5w_msg)] []
        [(1, c5w_petition)]).1 1 = some q ∧
      q.signatures = humanCount c5w_msg ∧
      Effect.editEmbed 1 e2 ∈ (verify_petition_signature_counts 0 [(1, c5w_msg)] []
        [(1, c5w_petition)]).2 ∧
      getField e2.fields SIG_FIELD_NAME =
        some (sigText (humanCount c5w_msg) (get_petition_threshold c5w_petition)) :=
  C5_audit_corrects_drift 0 [(1, c5w_msg)] [] [(1, c5w_petition)] 1 c5w_petition
    c5w_msg { fields := [(SIG_FIELD_NAME, "0/25")] } []
    (by decide) (by decide) (by decide) (by decide) (by decide) (by decide)
    (by decide) (by decide) (by decide) (by decide) (by decide)

/-! ## Claim C4 -/

/-- Claim C4: over any sequence of operations (reaction events, the two
periodic audits, the startup repair pass and the store-level marker and
update functions), each run against an arbitrary environment, the flags
`threshold_reached` and `expired` of every petition are monotonic: once
true they are never reset to false. -/
theorem C4_flag_monotonicity (trace : List (Env × Op)) (s : PStore)
    (mid : Nat) (p : PetitionData) (h : lookupP s mid = some p) :
    ∃ q, lookupP (runTrace trace s).1 mid = some q ∧
      (p.threshold_reached = true → q.threshold_reached = true) ∧
      (p.expired = true → q.expired = true) := by
  obtain ⟨q, hq, hf⟩ := runTrace_mono trace s mid p h
  exact ⟨q, hq, hf.1, hf.2⟩

def c4w_env : Env := { botId := 9, now := 31 * 86400, live := [], failIds := [] }

def c4w_petition : PetitionData :=
  { title := "W", created_at := 0, threshold_reached := true, expired := true }

theorem C4_flag_monotonicity_witness :
    ∃ q, lookupP (runTrace [(c4w_env, Op.signatureAudit), (c4w_env, Op.expiryAudit)]
        [(1, c4w_petition)]).1 1 = some q ∧
      (c4w_petition.threshold_reached = true → q.threshold_reached = true) ∧
      (c4w_petition.expired = true → q.expired = true) :=
  C4_flag_monotonicity [(c4w_env, Op.signatureAudit), (c4w_env, Op.expiryAudit)]
    [(1, c4w_petition)] 1 c4w_petition (by decide)

/-! ## Claim C8 -/

theorem mapL_cons (k1 : Nat) (v1 : LiveMsg) (rest : LiveWorld) (mid : Nat)
    (f : LiveMsg → LiveMsg) :
    mapL ((k1, v1) :: rest) mid f =
      (k1, if k1 = mid then f v1 else v1) :: mapL rest mid f := rfl

theorem lookupL_mapL (live : LiveWorld) (mid : Nat) (f : LiveMsg → LiveMsg)
    (k : Nat) :
    lookupL (mapL live mid f) k =
      if k = mid then (lookupL live k).map f else lookupL live k := by
  induction live with
  | nil => simp [mapL, lookupL]
  | cons kv rest ih =>
    obtain ⟨k1, v1⟩ := kv
    rw [mapL_cons]
    by_cases h1 : k1 = mid
    · subst h1
      by_cases h2 : k1 = k
      · subst h2; simp [lookupL]
      · simp [lookupL, h2, Ne.symm h2, ih]
    · by_cases h2 : k1 = k
      · subst h2
        simp [lookupL, h1, Ne.symm h1]
      · simp [lookupL, h1, h2, ih]

theorem any_filter_ne_self (us : List User) (botId : Nat) :
    (us.filter (fun u => u.uid ≠ botId)).any (fun u => u.uid == botId) = false := by
  induction us with
  | nil => rfl
  | cons u rest ih =>
    by_cases h : u.uid = botId
    · simp [List.filter_cons, h, ih]
    · simp [List.filter_cons, h, ih]

theorem get_petition_threshold_pos (p : PetitionData) :
    0 < get_petition_threshold p := by
  unfold get_petition_threshold RECALL_SIGNATURE_THRESHOLD SIGNATURE_THRESHOLD
  split <;> omega

theorem botReacted_append_self (botId : Nat) (ous : Option (List User))
    (e : List Embed) :
    botReacted botId ⟨some (ous.getD [] ++ [⟨botId, true⟩]), e⟩ = true := by
  simp [botReacted, List.any_append]

theorem botReacted_filter_self (botId : Nat) (ous : Option (List User))
    (e : List Embed) :
    botReacted botId ⟨ous.map (fun us => us.filter (fun u => u.uid ≠ botId)), e⟩ =
      false := by
  cases ous <;> simp [botReacted, any_filter_ne_self]

theorem botReacted_mk (botId : Nat) (ous : Option (List User)) (e : List Embed)
    (us : List User) (h : ous = some us) :
    botReacted botId ⟨ous, e⟩ = us.any (fun u => u.uid == botId) := by
  subst h; rfl

/-- Presence of the bot placeholder at a message, through the lens of the
live world. -/
def botPresent (botId : Nat) (lw : LiveWorld) (mid : Nat) : Option Bool :=
  (lookupL lw mid).map (botReacted botId)

theorem exists_of_botPresent {botId : Nat} {lw : LiveWorld} {mid : Nat}
    {b : Bool} (h : botPresent botId lw mid = some b) :
    ∃ m2, lookupL lw mid = some m2 ∧ botReacted botId m2 = b := by
  unfold botPresent at h
  cases hL : lookupL lw mid with
  | none => rw [hL] at h; simp at h
  | some m2 =>
    rw [hL] at h
    simp at h
    exact ⟨m2, rfl, h⟩

theorem botPresent_applyEffect_edit (botId : Nat) (lw : LiveWorld)
    (mid mid' : Nat) (e : Embed) :
    botPresent botId (applyEffect botId lw (Effect.editEmbed mid' e)) mid =
      botPresent botId lw mid := by
  simp only [botPresent, applyEffect, lookupL_mapL]
  by_cases h : mid = mid'
  · rw [if_pos h, Option.map_map]
    cases lookupL lw mid <;> rfl
  · rw [if_neg h]

theorem botPresent_applyEffect_notify (botId : Nat) (lw : LiveWorld)
    (mid mid' n : Nat) :
    botPresent botId (applyEffect botId lw (Effect.notify mid' n)) mid =
      botPresent botId lw mid := rfl

theorem botPresent_add_self (botId : Nat) (lw : LiveWorld) (mid : Nat) :
    botPresent botId (applyEffect botId lw (Effect.addReaction mid)) mid =
      (lookupL lw mid).map (fun _ => true) := by
  unfold botPresent applyEffect
  rw [lookupL_mapL, if_pos rfl, Option.map_map]
  cases hL : lookupL lw mid with
  | none => rfl
  | some m2 =>
    exact congrArg some (botReacted_append_self botId m2.ballpointUsers m2.embeds)

theorem botPresent_remove_self (botId : Nat) (lw : LiveWorld) (mid : Nat) :
    botPresent botId (applyEffect botId lw (Effect.removeReaction mid)) mid =
      (lookupL lw mid).map (fun _ => false) := by
  unfold botPresent applyEffect
  rw [lookupL_mapL, if_pos rfl, Option.map_map]
  cases hL : lookupL lw mid with
  | none => rfl
  | some m2 =>
    exact congrArg some (botReacted_filter_self botId m2.ballpointUsers m2.embeds)

/-- Claim C8: after the reaction handler runs on a live, non-expired
petition: the bot placeholder reaction is present exactly when the
non-bot reactor count is 0, and the stored signature count equals the
non-bot reactor count (the placeholder is never counted). -/
theorem C8_placeholder_invariant (botId : Nat) (now : Int) (mid : Nat)
    (live : LiveWorld) (s : PStore) (m : LiveMsg) (p : PetitionData)
    (hm : lookupL live mid = some m) (hp : lookupP s mid = some p)
    (hexp : check_petition_expired p now = false) :
    (humanCount m = 0 →
      ∃ m2, lookupL (applyEffects botId live
          (handle_petition_reaction botId now ⟨PETITIONS_CHANNEL_ID, mid, BALLPOINT_EMOJI⟩
            live s).2) mid = some m2 ∧
        botReacted botId m2 = true) ∧
    (0 < humanCount m →
      ∃ m2, lookupL (applyEffects botId live
          (handle_petition_reaction botId now ⟨PETITIONS_CHANNEL_ID, mid, BALLPOINT_EMOJI⟩
            live s).2) mid = some m2 ∧
        botReacted botId m2 = false) ∧
    (∃ q, lookupP (handle_petition_reaction botId now
        ⟨PETITIONS_CHANNEL_ID, mid, BALLPOINT_EMOJI⟩ live s).1 mid = some q ∧
      q.signatures = humanCount m) := by
  have hne1 : ¬ ((⟨PETITIONS_CHANNEL_ID, mid, BALLPOINT_EMOJI⟩ : Payload).channel_id ≠
      PETITIONS_CHANNEL_ID) := by simp
  have hne2 : ¬ ((⟨PETITIONS_CHANNEL_ID, mid, BALLPOINT_EMOJI⟩ : Payload).emoji ≠
      BALLPOINT_EMOJI) := by simp
  have hnexp1 : ¬ (check_petition_expired p now = true ∧ p.expired = false) := by
    simp [hexp]
  have hnexp2 : ¬ (check_petition_expired p now = true) := by simp [hexp]
  simp only [handle_petition_reaction, if_neg hne1, if_neg hne2]
  rw [hm]
  dsimp only
  rw [hp]
  dsimp only
  rw [if_neg hnexp1, if_neg hnexp2]
  cases hbu : m.ballpointUsers with
  | none =>
    dsimp only
    have hm0 : humanCount m = 0 := by simp [humanCount, hbu]
    refine ⟨?_, ?_, ?_⟩
    · intro _
      apply exists_of_botPresent
      simp only [applyEffects, List.cons_append, List.nil_append, List.foldl,
        botPresent_applyEffect_edit, botPresent_applyEffect_notify,
        botPresent_add_self]
      rw [hm]
      rfl
    · intro h0
      rw [hm0] at h0
      exact absurd h0 (by omega)
    · refine ⟨{ p with signatures := 0 }, ?_, by simp [hm0]⟩
      simp [lookupP_update_sigs, hp]
  | some us =>
    dsimp only
    have hmn : humanCount m = (us.filter (fun u => !u.bot)).length := by
      simp [humanCount, hbu]
    by_cases hc1 : (us.filter (fun u => !u.bot)).length = 0 ∧
        us.any (fun u => u.uid == botId) = false
    · -- zero human signers, bot absent: the placeholder is added
      rw [if_pos hc1]
      have hthr0 : ¬ (get_petition_threshold p ≤ (us.filter (fun u => !u.bot)).length ∧
          p.threshold_reached = false) := by
        rw [hc1.1]
        intro hcon
        have := get_petition_threshold_pos p
        omega
      refine ⟨?_, ?_, ?_⟩
      · intro _
        cases hE : m.embeds with
        | nil =>
          dsimp only
          apply exists_of_botPresent
          simp only [applyEffects, List.cons_append, List.nil_append, List.foldl,
            botPresent_applyEffect_edit, botPresent_applyEffect_notify,
            botPresent_add_self]
          rw [hm]
          rfl
        | cons e es =>
          dsimp only
          rw [if_neg hthr0]
          apply exists_of_botPresent
          simp only [applyEffects, List.cons_append, List.nil_append, List.foldl,
            botPresent_applyEffect_edit, botPresent_applyEffect_notify,
            botPresent_add_self]
          rw [hm]
          rfl
      · intro h0
        rw [hmn] at h0
        omega
      · cases hE : m.embeds with
        | nil =>
          dsimp only
          refine ⟨{ p with signatures := (us.filter (fun u => !u.bot)).length },
            ?_, by simp [hmn]⟩
          simp [lookupP_update_sigs, hp]
        | cons e es =>
          dsimp only
          rw [if_neg hthr0]
          refine ⟨{ p with signatures := (us.filter (fun u => !u.bot)).length },
            ?_, by simp [hmn]⟩
          simp [lookupP_update_sigs, hp]
    · rw [if_neg hc1]
      by_cases hc2 : 0 < (us.filter (fun u => !u.bot)).length ∧
          us.any (fun u => u.uid == botId) = true
      · -- humans signed and the bot is present: the placeholder is removed
        rw [if_pos hc2]
        refine ⟨?_, ?_, ?_⟩
        · intro h0
          rw [hmn] at h0
          omega
        · intro _
          cases hE : m.embeds with
          | nil =>
            dsimp only
            apply exists_of_botPresent
            simp only [applyEffects, List.cons_append, List.nil_append, List.foldl,
              botPresent_applyEffect_edit, botPresent_applyEffect_notify,
              botPresent_remove_self]
            rw [hm]
            rfl
          | cons e es =>
            dsimp only
            by_cases h4 : get_petition_threshold p ≤ (us.filter (fun u => !u.bot)).length ∧
                p.threshold_reached = false
            · rw [if_pos h4]
              apply exists_of_botPresent
              simp only [applyEffects, List.cons_append, List.nil_append, List.foldl,
                botPresent_applyEffect_edit, botPresent_applyEffect_notify,
                botPresent_remove_self]
              rw [hm]
              rfl
            · rw [if_neg h4]
              apply exists_of_botPresent
              simp only [applyEffects, List.cons_append, List.nil_append, List.foldl,
                botPresent_applyEffect_edit, botPresent_applyEffect_notify,
                botPresent_remove_self]
              rw [hm]
              rfl
        · cases hE : m.embeds with
          | nil =>
            dsimp only
            refine ⟨{ p with signatures := (us.filter (fun u => !u.bot)).length },
              ?_, by simp [hmn]⟩
            simp [lookupP_update_sigs, hp]
          | cons e es =>
            dsimp only
            by_cases h4 : get_petition_threshold p ≤ (us.filter (fun u => !u.bot)).length ∧
                p.threshold_reached = false
            · rw [if_pos h4]
              refine ⟨{ p with
                  signatures := (us.filter (fun u => !u.bot)).length
                  threshold_reached := true }, ?_, by simp [hmn]⟩
              simp [lookupP_mark_threshold, lookupP_update_sigs, hp]
            · rw [if_neg h4]
              refine ⟨{ p with signatures := (us.filter (fun u => !u.bot)).length },
                ?_, by simp [hmn]⟩
              simp [lookupP_update_sigs, hp]
      · -- no reaction change: zero humans with the bot already present, or
        -- humans present with the bot already absent
        rw [if_neg hc2]
        refine ⟨?_, ?_, ?_⟩
        · intro h0
          rw [hmn] at h0
          have hbot : us.any (fun u => u.uid == botId) = true := by
            cases hb : us.any (fun u => u.uid == botId) with
            | false => exact absurd ⟨h0, hb⟩ hc1
            | true => rfl
          have hthr0 : ¬ (get_petition_threshold p ≤ (us.filter (fun u => !u.bot)).length ∧
              p.threshold_reached = false) := by
            rw [h0]
            intro hcon
            have := get_petition_threshold_pos p
            omega
          cases hE : m.embeds with
          | nil =>
            dsimp only
            exact ⟨m, by simpa [applyEffects] using hm,
              (botReacted_mk botId m.ballpointUsers m.embeds us hbu).trans hbot⟩
          | cons e es =>
            dsimp only
            rw [if_neg hthr0]
            apply exists_of_botPresent
            simp only [applyEffects, List.cons_append, List.nil_append, List.foldl,
              botPresent_applyEffect_edit, botPresent_applyEffect_notify]
            simp [botPresent, hm, botReacted, hbu, hbot]
        · intro h0
          rw [hmn] at h0
          have hbot : us.any (fun u => u.uid == botId) = false := by
            cases hb : us.any (fun u => u.uid == botId) with
            | false => rfl
            | true => exact absurd ⟨h0, hb⟩ hc2
          cases hE : m.embeds with
          | nil =>
            dsimp only
            exact ⟨m, by simpa [applyEffects] using hm,
              (botReacted_mk botId m.ballpointUsers m.embeds us hbu).trans hbot⟩
          | cons e es =>
            dsimp only
            by_cases h4 : get_petition_threshold p ≤ (us.filter (fun u => !u.bot)).length ∧
                p.threshold_reached = false
            · rw [if_pos h4]
              apply exists_of_botPresent
              simp only [applyEffects, List.cons_append, List.nil_append, List.foldl,
                botPresent_applyEffect_edit, botPresent_applyEffect_notify]
              simp [botPresent, hm, botReacted, hbu, hbot]
            · rw [if_neg h4]
              apply exists_of_botPresent
              simp only [applyEffects, List.cons_append, List.nil_append, List.foldl,
                botPresent_applyEffect_edit, botPresent_applyEffect_notify]
              simp [botPresent, hm, botReacted, hbu, hbot]
        · cases hE : m.embeds with
          | nil =>
            dsimp only
            refine ⟨{ p with signatures := (us.filter (fun u => !u.bot)).length },
              ?_, by simp [hmn]⟩
            simp [lookupP_update_sigs, hp]
          | cons e es =>
            dsimp only
            by_cases h4 : get_petition_threshold p ≤ (us.filter (fun u => !u.bot)).length ∧
                p.threshold_reached = false
            · rw [if_pos h4]
              refine ⟨{ p with
                  signatures := (us.filter (fun u => !u.bot)).length
                  threshold_reached := true }, ?_, by simp [hmn]⟩
              simp [lookupP_mark_threshold, lookupP_update_sigs, hp]
            · rw [if_neg h4]
              refine ⟨{ p with signatures := (us.filter (fun u => !u.bot)).length },
                ?_, by simp [hmn]⟩
              simp [lookupP_update_sigs, hp]
def c8w_msg : LiveMsg :=
  { ballpointUsers := some [⟨7, false⟩]
    embeds := [{ fields := [(SIG_FIELD_NAME, "0/25")] }] }

def c8w_petition : PetitionData :=
  { title := "W", created_at := 0, signatures := 0 }

theorem C8_placeholder_invariant_witness :
    (humanCount c8w_msg = 0 →
      ∃ m2, lookupL (applyEffects 99 [(1, c8w_msg)]
          (handle_petition_reaction 99 0 ⟨PETITIONS_CHANNEL_ID, 1, BALLPOINT_EMOJI⟩
            [(1, c8w_msg)] [(1, c8w_petition)]).2) 1 = some m2 ∧
        botReacted 99 m2 = true) ∧
    (0 < humanCount c8w_msg →
      ∃ m2, lookupL (applyEffects 99 [(1, c8w_msg)]
          (handle_petition_reaction 99 0 ⟨PETITIONS_CHANNEL_ID, 1, BALLPOINT_EMOJI⟩
            [(1, c8w_msg)] [(1, c8w_petition)]).2) 1 = some m2 ∧
        botReacted 99 m2 = false) ∧
    (∃ q, lookupP (handle_petition_reaction 99 0
        ⟨PETITIONS_CHANNEL_ID, 1, BALLPOINT_EMOJI⟩ [(1, c8w_msg)]
        [(1, c8w_petition)]).1 1 = some q ∧
      q.signatures = humanCount c8w_msg) :=
  C8_placeholder_invariant 99 0 1 [(1, c8w_msg)] [(1, c8w_petition)]
    c8w_msg c8w_petition (by decide) (by decide) (by decide)

/-! ## Claim C7 -/

/-- Claim C7: expiry uses the strict comparison
`now - created_at > 30 days`: a petition is not expired at creation time
plus thirty days (in particular one second before), and is expired
strictly after (in particular one second after). -/
theorem C7_expiry_boundary (p : PetitionData) :
    check_petition_expired p (p.created_at + 30 * 86400 - 1) = false ∧
    check_petition_expired p (p.created_at + 30 * 86400) = false ∧
    check_petition_expired p (p.created_at + 30 * 86400 + 1) = true ∧
    (∀ now : Int, check_petition_expired p now = true ↔
      p.created_at + 30 * 86400 < now) := by
  simp only [check_petition_expired, PETITION_EXPIRY_DAYS, SECONDS_PER_DAY,
    decide_eq_true_eq, decide_eq_false_iff_not]
  refine ⟨by push_cast; omega, by push_cast; omega, by push_cast; omega,
    fun now => by push_cast; omega⟩

/-! ## Claim C9 -/

theorem verifyOne_err (now : Int) (live : LiveWorld) (failIds : List Nat)
    (en : Nat × PetitionData) (hf : en.1 ∈ failIds) (st : PStore) :
    verifyOne now live failIds en st = (st, []) := by
  have hfe : fetchSim live failIds en.1 = FetchResult.err := by
    simp [fetchSim, hf]
  simp only [verifyOne, hfe]
  split
  · rfl
  · split
    · rfl
    · rfl

theorem expiryOne_err (now : Int) (live : LiveWorld) (failIds : List Nat)
    (en : Nat × PetitionData) (hf : en.1 ∈ failIds) (st : PStore) :
    expiryOne now live failIds en st = (st, []) := by
  have hfe : fetchSim live failIds en.1 = FetchResult.err := by
    simp [fetchSim, hf]
  simp only [expiryOne, hfe]
  split
  · rfl
  · split
    · rfl
    · rfl

theorem sweepList_cons_skip
    (step : Nat × PetitionData → PStore → PStore × List Effect)
    (f : Nat × PetitionData) (hstep : ∀ st, step f st = (st, []))
    (entries : List (Nat × PetitionData)) (st : PStore) :
    sweepList step (f :: entries) st = sweepList step entries st := by
  simp only [sweepList, hstep st]
  simp

/-- Claim C9: an unexpected exception while processing one petition is
caught inside that iteration of either periodic sweep — the sweep result
is exactly as if the failing petition were not there, so all remaining
petitions are still processed; and each background loop reacts to any
outcome of its sweep, success or exception, by sleeping and continuing,
never terminating (on an exception it retries after the shorter
backoff: 1800 s for the hourly signature checker, 3600 s for the
6-hourly expiry checker). -/
theorem C9_fault_isolation (now : Int) (live : LiveWorld) (failIds : List Nat)
    (e1 e2 : List (Nat × PetitionData)) (f : Nat × PetitionData)
    (hf : f.1 ∈ failIds) (st : PStore) (msg : String) :
    sweepList (verifyOne now live failIds) (e1 ++ f :: e2) st =
      sweepList (verifyOne now live failIds) (e1 ++ e2) st ∧
    sweepList (expiryOne now live failIds) (e1 ++ f :: e2) st =
      sweepList (expiryOne now live failIds) (e1 ++ e2) st ∧
    signature_checker_on_outcome (Except.error msg) =
      LoopDecision.sleepThenContinue 1800 ∧
    signature_checker_on_outcome (Except.ok ()) =
      LoopDecision.sleepThenContinue 3600 ∧
    expiry_checker_on_outcome (Except.error msg) =
      LoopDecision.sleepThenContinue 3600 ∧
    expiry_checker_on_outcome (Except.ok ()) =
      LoopDecision.sleepThenContinue 21600 := by
  refine ⟨?_, ?_, rfl, rfl, rfl, rfl⟩
  · rw [sweepList_append, sweepList_append,
      sweepList_cons_skip _ f (verifyOne_err now live failIds f hf)]
  · rw [sweepList_append, sweepList_append,
      sweepList_cons_skip _ f (expiryOne_err now live failIds f hf)]

theorem C9_fault_isolation_witness :
    sweepList (verifyOne 0 [] [5]) ([] ++ (5, { title := "F", created_at := 0 }) :: []) [] =
      sweepList (verifyOne 0 [] [5]) ([] ++ []) [] ∧
    sweepList (expiryOne 0 [] [5]) ([] ++ (5, { title := "F", created_at := 0 }) :: []) [] =
      sweepList (expiryOne 0 [] [5]) ([] ++ []) [] ∧
    signature_checker_on_outcome (Except.error "boom") =
      LoopDecision.sleepThenContinue 1800 ∧
    signature_checker_on_outcome (Except.ok ()) =
      LoopDecision.sleepThenContinue 3600 ∧
    expiry_checker_on_outcome (Except.error "boom") =
      LoopDecision.sleepThenContinue 3600 ∧
    expiry_checker_on_outcome (Except.ok ()) =
      LoopDecision.sleepThenContinue 21600 :=
  C9_fault_isolation 0 [] [5] [] [] (5, { title := "F", created_at := 0 })
    (by decide) [] "boom"

/-! ## Claim C6 -/

theorem notifyCount_append (l1 l2 : List Effect) (mid : Nat) :
    notifyCount (l1 ++ l2) mid = notifyCount l1 mid + notifyCount l2 mid := by
  simp [notifyCount, List.filter_append]

theorem notifyCount_expiryOne (now : Int) (live : LiveWorld) (failIds : List Nat)
    (en : Nat × PetitionData) (st : PStore) (mid : Nat) :
    notifyCount (expiryOne now live failIds en st).2 mid = 0 := by
  simp only [expiryOne, update_expired_embed]
  repeat' split
  all_goals simp [notifyCount]

theorem notifyCount_repairOne (botId : Nat) (now : Int) (live : LiveWorld)
    (failIds : List Nat) (en : Nat × PetitionData) (st : PStore) (mid : Nat) :
    notifyCount (repairOne botId now live failIds en st).2 mid = 0 := by
  simp only [repairOne]
  repeat' split
  all_goals simp [notifyCount, List.filter_append]

theorem notifyCount_sweepList_zero
    (step : Nat × PetitionData → PStore → PStore × List Effect) (mid : Nat)
    (hstep : ∀ en st, notifyCount (step en st).2 mid = 0) :
    ∀ (entries : List (Nat × PetitionData)) (st : PStore),
      notifyCount (sweepList step entries st).2 mid = 0 := by
  intro entries
  induction entries with
  | nil => intro st; rfl
  | cons en rest ih =>
    intro st
    simp only [sweepList]
    rw [notifyCount_append, hstep, ih]

/-- The audit iteration either emits no notification for `mid`, or it is
the iteration of `mid`'s own snapshot entry, that entry's flag was still
false, exactly one notification goes out, and the flag is set in the
resulting store. -/
theorem verifyOne_notify_cases (now : Int) (live : LiveWorld)
    (failIds : List Nat) (en : Nat × PetitionData) (st : PStore) (mid : Nat) :
    notifyCount (verifyOne now live failIds en st).2 mid = 0 ∨
    (en.1 = mid ∧ en.2.threshold_reached = false ∧
      notifyCount (verifyOne now live failIds en st).2 mid = 1 ∧
      ∀ p, lookupP st mid = some p →
        ∃ q, lookupP (verifyOne now live failIds en st).1 mid = some q ∧
          q.threshold_reached = true) := by
  simp only [verifyOne]
  split
  · left; rfl
  split
  · left; rfl
  split
  · left; rfl
  · left; rfl
  · rename_i m heqF
    split
    · left; rfl
    split
    · left; rfl
    · split
      · rename_i h4
        by_cases hk : en.1 = mid
        · right
          refine ⟨hk, h4.2, ?_, ?_⟩
          · rw [hk]
            simp [notifyCount]
          · intro p hp
            rw [hk, lookupP_mark_threshold, if_pos rfl, lookupP_update_sigs,
              if_pos rfl, hp]
            exact ⟨_, rfl, rfl⟩
        · left
          simp [notifyCount, hk]
      · left
        simp [notifyCount]

theorem verifySweep_absent_zero (now : Int) (live : LiveWorld)
    (failIds : List Nat) (mid : Nat) :
    ∀ (entries : List (Nat × PetitionData)) (st : PStore),
      (∀ en ∈ entries, en.1 ≠ mid) →
      notifyCount (sweepList (verifyOne now live failIds) entries st).2 mid = 0 := by
  intro entries
  induction entries with
  | nil => intro st _; rfl
  | cons en rest ih =>
    intro st hne
    simp only [sweepList]
    rw [notifyCount_append]
    rcases verifyOne_notify_cases now live failIds en st mid with h | h
    · rw [h, ih _ (fun en2 h2 => hne en2 (List.mem_cons_of_mem _ h2))]
    · exact absurd h.1 (hne en (List.mem_cons_self _ _))

/-- Full-sweep notification invariant for the signature audit: at most
one notification per petition per sweep, none at all once the flag is
set, and any notification leaves the flag set. -/
theorem verifySweep_notify_inv (now : Int) (live : LiveWorld)
    (failIds : List Nat) (mid : Nat) :
    ∀ (entries : List (Nat × PetitionData)) (st : PStore),
      (entries.map Prod.fst).Nodup →
      (∀ en ∈ entries, (lookupP st en.1).isSome) →
      notifyCount (sweepList (verifyOne now live failIds) entries st).2 mid ≤ 1 ∧
      ((∀ q, (mid, q) ∈ entries → q.threshold_reached = true) →
        notifyCount (sweepList (verifyOne now live failIds) entries st).2 mid = 0) ∧
      (1 ≤ notifyCount (sweepList (verifyOne now live failIds) entries st).2 mid →
        ∃ q2, lookupP (sweepList (verifyOne now live failIds) entries st).1 mid =
            some q2 ∧ q2.threshold_reached = true) := by
  intro entries
  induction entries with
  | nil =>
    intro st _ _
    refine ⟨by simp [sweepList, notifyCount], fun _ => rfl, fun h => ?_⟩
    simp [sweepList, notifyCount] at h
  | cons en rest ih =>
    intro st hnd hkeys
    simp only [List.map_cons, List.nodup_cons] at hnd
    have hkeys1 : ∀ en2 ∈ rest,
        (lookupP (verifyOne now live failIds en st).1 en2.1).isSome := by
      intro en2 h2
      have hs := hkeys en2 (List.mem_cons_of_mem _ h2)
      have hk := verifyOne_keys now live failIds en st
      exact lookupP_isSome_of_key (by rw [hk]; exact key_of_lookupP_isSome hs)
    have IH := ih (verifyOne now live failIds en st).1 hnd.2 hkeys1
    simp only [sweepList, notifyCount_append]
    rcases verifyOne_notify_cases now live failIds en st mid with h0 | hpos
    · rw [h0]
      simp only [Nat.zero_add]
      refine ⟨IH.1, ?_, IH.2.2⟩
      intro hflag
      exact IH.2.1 (fun q hq => hflag q (List.mem_cons_of_mem _ hq))
    · obtain ⟨hk, hfl, h1, hset⟩ := hpos
      have habs : ∀ en2 ∈ rest, en2.1 ≠ mid := by
        intro en2 h2 he
        exact hnd.1 (by rw [hk, ← he]; exact List.mem_map.mpr ⟨en2, h2, rfl⟩)
      have hrest0 : notifyCount (sweepList (verifyOne now live failIds) rest
          (verifyOne now live failIds en st).1).2 mid = 0 :=
        verifySweep_absent_zero now live failIds mid rest _ habs
      rw [h1, hrest0]
      refine ⟨by omega, ?_, ?_⟩
      · intro hflag
        have hcontr := hflag en.2 (by rw [← hk]; exact List.mem_cons_self _ _)
        simp [hfl] at hcontr
      · intro _
        have hsome : (lookupP st mid).isSome := by
          have hs := hkeys en (List.mem_cons_self _ _)
          rw [hk] at hs
          exact hs
        obtain ⟨p0, hp0⟩ := Option.isSome_iff_exists.mp hsome
        obtain ⟨q, hq, hqf⟩ := hset p0 hp0
        obtain ⟨q2, hq2, hf2⟩ := sweepList_mono _ (verifyOne_mono now live failIds)
          rest _ mid q hq
        exact ⟨q2, hq2, hf2.1 hqf⟩

/-- The reaction handler either emits no notification for `mid`, or it
emits exactly one, the stored flag was still false, and the handler sets
it in the same step. -/
theorem handle_notify_cases (botId : Nat) (now : Int) (payload : Payload)
    (live : LiveWorld) (s : PStore) (mid : Nat) :
    notifyCount (handle_petition_reaction botId now payload live s).2 mid = 0 ∨
    (notifyCount (handle_petition_reaction botId now payload live s).2 mid = 1 ∧
      (∃ p, lookupP s mid = some p ∧ p.threshold_reached = false) ∧
      (∃ q, lookupP (handle_petition_reaction botId now payload live s).1 mid =
          some q ∧ q.threshold_reached = true)) := by
  simp only [handle_petition_reaction]
  split
  · left; rfl
  split
  · left; rfl
  split
  · left; rfl
  · rename_i m heqL
    split
    · left; rfl
    · rename_i p heqP
      split
      · left
        simp only [update_expired_embed]
        split
        · rfl
        · simp [notifyCount]
      split
      · left; rfl
      split
      · left
        simp [notifyCount]
      · rename_i allUsers heqU
        split
        · -- no embeds: effects are just the reaction management
          left
          split
          · simp [notifyCount]
          · split
            · simp [notifyCount]
            · simp [notifyCount]
        · rename_i e tail heqE
          split
          · -- threshold crossing: reactEffects ++ [notify, edit]
            rename_i h4
            by_cases hk : payload.message_id = mid
            · right
              subst hk
              refine ⟨?_, ⟨p, heqP, h4.2⟩, ?_⟩
              · rw [notifyCount_append]
                split
                · simp [notifyCount]
                · split
                  · simp [notifyCount]
                  · simp [notifyCount]
              · rw [lookupP_mark_threshold, if_pos rfl, lookupP_update_sigs,
                  if_pos rfl, heqP]
                exact ⟨_, rfl, rfl⟩
            · left
              rw [notifyCount_append]
              split
              · simp [notifyCount, hk]
              · split
                · simp [notifyCount, hk]
                · simp [notifyCount, hk]
          · -- no threshold crossing: reactEffects ++ [edit]
            left
            rw [notifyCount_append]
            split
            · simp [notifyCount]
            · split
              · simp [notifyCount]
              · simp [notifyCount]

/-- Per-operation notification invariant: at most one notification per
petition, none once the flag is set, and any notification sets the
flag. -/
theorem applyOp_notify_inv (env : Env) (op : Op) (s : PStore) (mid : Nat)
    (hnd : (s.map Prod.fst).Nodup) :
    notifyCount (applyOp env op s).2 mid ≤ 1 ∧
    ((∀ p, lookupP s mid = some p → p.threshold_reached = true) →
      notifyCount (applyOp env op s).2 mid = 0) ∧
    (1 ≤ notifyCount (applyOp env op s).2 mid →
      ∃ q, lookupP (applyOp env op s).1 mid = some q ∧
        q.threshold_reached = true) := by
  cases op with
  | reactionEvent payload =>
    simp only [applyOp]
    rcases handle_notify_cases env.botId env.now payload env.live s mid with
      h | ⟨h1, ⟨p, hp, hpf⟩, hq⟩
    · refine ⟨by rw [h]; omega, fun _ => h, fun hge => ?_⟩
      rw [h] at hge
      omega
    · refine ⟨le_of_eq h1, ?_, fun _ => hq⟩
      intro hflag
      have := hflag p hp
      simp [hpf] at this
  | signatureAudit =>
    simp only [applyOp, verify_petition_signature_counts]
    have hkeys : ∀ en ∈ s, (lookupP s en.1).isSome := fun en hen =>
      lookupP_isSome_of_key (List.mem_map.mpr ⟨en, hen, rfl⟩)
    have H := verifySweep_notify_inv env.now env.live env.failIds mid s s hnd hkeys
    refine ⟨H.1, ?_, H.2.2⟩
    intro hflag
    exact H.2.1 (fun q hq => hflag q (mem_lookupP hnd hq))
  | expiryAudit =>
    simp only [applyOp, check_all_petitions_for_expiry]
    have hz := notifyCount_sweepList_zero _ mid
      (fun en st => notifyCount_expiryOne env.now env.live env.failIds en st mid) s s
    refine ⟨by rw [hz]; omega, fun _ => hz, fun hge => ?_⟩
    rw [hz] at hge
    omega
  | repair =>
    simp only [applyOp, repair_petition_system]
    have hz := notifyCount_sweepList_zero _ mid
      (fun en st => notifyCount_repairOne env.botId env.now env.live env.failIds
        en st mid) s s
    refine ⟨by rw [hz]; omega, fun _ => hz, fun hge => ?_⟩
    rw [hz] at hge
    omega
  | markThreshold mid2 =>
    exact ⟨by simp [applyOp, notifyCount], fun _ => rfl,
      fun hge => by simp [applyOp, notifyCount] at hge⟩
  | markExpired mid2 =>
    exact ⟨by simp [applyOp, notifyCount], fun _ => rfl,
      fun hge => by simp [applyOp, notifyCount] at hge⟩
  | markInvalid mid2 reason =>
    exact ⟨by simp [applyOp, notifyCount], fun _ => rfl,
      fun hge => by simp [applyOp, notifyCount] at hge⟩
  | updateSigs mid2 n =>
    exact ⟨by simp [applyOp, notifyCount], fun _ => rfl,
      fun hge => by simp [applyOp, notifyCount] at hge⟩

/-- Once every record under `mid` carries a raised flag, that stays so
after any operation (keys are preserved and flags are monotone). -/
theorem flagTrue_preserved {s t : PStore} (hmono : storeMono s t)
    (hkeys : t.map Prod.fst = s.map Prod.fst) (mid : Nat)
    (h : ∀ p, lookupP s mid = some p → p.threshold_reached = true) :
    ∀ p, lookupP t mid = some p → p.threshold_reached = true := by
  intro p hp
  have hmem : mid ∈ s.map Prod.fst := by
    rw [← hkeys]
    exact key_of_lookupP_isSome (by simp [hp])
  obtain ⟨p0, hp0⟩ := Option.isSome_iff_exists.mp (lookupP_isSome_of_key hmem)
  obtain ⟨q, hq, hf⟩ := hmono mid p0 hp0
  rw [hp] at hq
  injection hq with hq
  rw [hq]
  exact hf.1 (h p0 hp0)

/-- Whole-trace notification invariant. -/
theorem runTrace_notify_inv (mid : Nat) :
    ∀ (trace : List (Env × Op)) (s : PStore),
      (s.map Prod.fst).Nodup →
      ((∀ p, lookupP s mid = some p → p.threshold_reached = true) →
        notifyCount (runTrace trace s).2 mid = 0) ∧
      notifyCount (runTrace trace s).2 mid ≤ 1 ∧
      (1 ≤ notifyCount (runTrace trace s).2 mid →
        ∃ q, lookupP (runTrace trace s).1 mid = some q ∧
          q.threshold_reached = true) := by
  intro trace
  induction trace with
  | nil =>
    intro s _
    exact ⟨fun _ => rfl, by simp [runTrace, notifyCount],
      fun h => by simp [runTrace, notifyCount] at h⟩
  | cons step rest ih =>
    obtain ⟨env, op⟩ := step
    intro s hnd
    have hnd1 : (((applyOp env op s).1).map Prod.fst).Nodup := by
      rw [applyOp_keys]; exact hnd
    have IH := ih (applyOp env op s).1 hnd1
    have OP := applyOp_notify_inv env op s mid hnd
    simp only [runTrace, notifyCount_append]
    refine ⟨?_, ?_, ?_⟩
    · intro hflag
      rw [OP.2.1 hflag, IH.1 (flagTrue_preserved (applyOp_mono env op s)
        (applyOp_keys env op s) mid hflag)]
    · rcases Nat.eq_zero_or_pos (notifyCount (applyOp env op s).2 mid) with h0 | hpos
      · rw [h0]
        have := IH.2.1
        omega
      · obtain ⟨q, hq, hqf⟩ := OP.2.2 hpos
        have hflag1 : ∀ p, lookupP (applyOp env op s).1 mid = some p →
            p.threshold_reached = true := by
          intro p hp
          rw [hq] at hp
          injection hp with hp
          rw [← hp]
          exact hqf
        rw [IH.1 hflag1]
        have := OP.1
        omega
    · intro hge
      rcases Nat.eq_zero_or_pos (notifyCount (applyOp env op s).2 mid) with h0 | hpos
      · rw [h0] at hge
        simp only [Nat.zero_add] at hge
        exact IH.2.2 hge
      · obtain ⟨q, hq, hqf⟩ := OP.2.2 hpos
        obtain ⟨q2, hq2, hf2⟩ := runTrace_mono rest (applyOp env op s).1 mid q hq
        exact ⟨q2, hq2, hf2.1 hqf⟩

/-- Claim C6: over any sequence of operations (reaction events, audits,
repair, marker functions) against arbitrary environments, the
threshold-reached admin notification for a given petition is sent at
most once; it is only sent while the petition's `threshold_reached` flag
is still false, the sending step raises the flag, and after any
notification the flag is true in the final store. -/
theorem C6_notify_at_most_once (trace : List (Env × Op)) (s : PStore)
    (mid : Nat) (hnd : (s.map Prod.fst).Nodup) :
    notifyCount (runTrace trace s).2 mid ≤ 1 ∧
    ((∀ p, lookupP s mid = some p → p.threshold_reached = true) →
      notifyCount (runTrace trace s).2 mid = 0) ∧
    (1 ≤ notifyCount (runTrace trace s).2 mid →
      ∃ q, lookupP (runTrace trace s).1 mid = some q ∧
        q.threshold_reached = true) := by
  have H := runTrace_notify_inv mid trace s hnd
  exact ⟨H.2.1, H.1, H.2.2⟩

def c6w_env : Env := { botId := 99, now := 0, live := [(1, c8w_msg)], failIds := [] }

def c6w_store : PStore :=
  [(1, { title := "W", created_at := 0, signatures := 3 })]

theorem C6_notify_at_most_once_witness :
    notifyCount (runTrace [(c6w_env, Op.signatureAudit), (c6w_env, Op.signatureAudit)]
        c6w_store).2 1 ≤ 1 ∧
    ((∀ p, lookupP c6w_store 1 = some p → p.threshold_reached = true) →
      notifyCount (runTrace [(c6w_env, Op.signatureAudit), (c6w_env, Op.signatureAudit)]
        c6w_store).2 1 = 0) ∧
    (1 ≤ notifyCount (runTrace [(c6w_env, Op.signatureAudit), (c6w_env, Op.signatureAudit)]
        c6w_store).2 1 →
      ∃ q, lookupP (runTrace [(c6w_env, Op.signatureAudit), (c6w_env, Op.signatureAudit)]
        c6w_store).1 1 = some q ∧ q.threshold_reached = true) :=
  C6_notify_at_most_once [(c6w_env, Op.signatureAudit), (c6w_env, Op.signatureAudit)]
    c6w_store 1 (by decide)

/-! ## Claim C10 -/

/-- Claim C10: the three marker functions return true exactly when the
message id is a key of the persisted mapping, and on an absent id all
three markers and `update_petition_signatures` leave the stored document
unchanged. -/
theorem C10_mark_missing_id (s : PStore) (mid n : Nat) (reason : String)
    (now : Int) :
    (mark_threshold_reached s mid).2 = (lookupP s mid).isSome ∧
    (mark_petition_expired s mid).2 = (lookupP s mid).isSome ∧
    (mark_petition_invalid s mid reason now).2 = (lookupP s mid).isSome ∧
    (lookupP s mid = none →
      (mark_threshold_reached s mid).1 = s ∧
      (mark_petition_expired s mid).1 = s ∧
      (mark_petition_invalid s mid reason now).1 = s ∧
      update_petition_signatures s mid n = s) := by
  unfold mark_threshold_reached mark_petition_expired mark_petition_invalid
    update_petition_signatures
  cases h : lookupP s mid <;> simp [h]

theorem C10_mark_missing_id_witness :
    (mark_threshold_reached [] 1).2 = false ∧
    (mark_threshold_reached [] 1).1 = ([] : PStore) ∧
    update_petition_signatures [] 1 5 = ([] : PStore) := by
  have h := C10_mark_missing_id [] 1 5 "gone" 0
  have h2 := h.2.2.2 rfl
  exact ⟨by simpa using h.1, h2.1, h2.2.2.2⟩

end VCBot
